import Mathlib

set_option autoImplicit false
set_option maxRecDepth 8000

/- Shallow embedding of src/fmp_api.py (class FMP): the request/retry logic
of get_json_parsed_data, the period resolution of helper_data_auto_period,
the start-date resolution of helper_start_date, the constructor's date and
calendar initialisation, and the batch aggregation of
process_celery_results.  External collaborators (urlopen, json decoding,
the celery queue, the SQL store lookup and the pandas frame construction
performed by helper_process_dict) enter as parameters or as small data
models; everything else is translated directly from the source. -/

/-- Python exception classes raised by the embedded code paths. -/
inductive PyErr where
  | requestError (msg : String)
  | httpError (msg : String)
  | assertionError (msg : String)
  | valueError (msg : String)
  | typeError (msg : String)
  | attributeError (msg : String)
  | keyError (msg : String)
  deriving DecidableEq, Repr

instance instDecEqExcept {e a : Type} [DecidableEq e] [DecidableEq a] :
    DecidableEq (Except e a)
  | .error x, .error y =>
    if h : x = y then isTrue (by rw [h]) else isFalse (fun hc => h (by injection hc))
  | .error _, .ok _ => isFalse (fun hc => Except.noConfusion hc)
  | .ok _, .error _ => isFalse (fun hc => Except.noConfusion hc)
  | .ok x, .ok y =>
    if h : x = y then isTrue (by rw [h]) else isFalse (fun hc => h (by injection hc))

/-- Decoded JSON payload at the granularity the client inspects it:
the source only applies Python len() to it and tests for an
"Error Message" key (fmp_api.py lines 753-755). -/
inductive JsonData where
  | arr (n : Nat)
  | obj (keys : List String)
  deriving DecidableEq, Repr

/-- Python len() on the decoded payload (list length or number of keys). -/
def pyLen : JsonData → Nat
  | .arr n => n
  | .obj keys => keys.length

/-- The test isinstance(data, dict) and "Error Message" in data.keys(). -/
def hasErrorMessage : JsonData → Bool
  | .arr _ => false
  | .obj keys => keys.contains "Error Message"

/-- The three task_queuing modes accepted by the FMP constructor
(fmp_api.py lines 97-101). -/
inductive TaskQueuing where
  | legacy
  | celeryWait
  | celerySubmit
  deriving DecidableEq, Repr

/-- Counts of the observable calls made by the legacy download loop:
urlopen calls, time.sleep(time_wait_query) calls and
time.sleep(time_wait_retry) calls. -/
structure CallLog where
  calls : Nat
  querySleeps : Nat
  retrySleeps : Nat
  deriving DecidableEq, Repr

def emptyLog : CallLog := ⟨0, 0, 0⟩

/-- The while loop of get_json_parsed_data in legacy mode (fmp_api.py lines
734-745).  The transport t models urlopen+read+json.loads for attempt i:
none is a connection-level error (URLError, RemoteDisconnected, HTTPError,
IncompleteRead), some d a decoded response.  Returns the response (if any),
the final value of the counter n, and the call log. -/
def fetchLoopAux (t : Nat → Option JsonData) : Nat → Nat → Option JsonData × Nat × CallLog
  | 0, n => (none, n, emptyLog)
  | fuel + 1, n =>
    match t n with
    | some r => (some r, n, ⟨1, 1, 0⟩)
    | none =>
      let res := fetchLoopAux t fuel (n + 1)
      (res.1, res.2.1, ⟨res.2.2.calls + 1, res.2.2.querySleeps + 1, res.2.2.retrySleeps + 1⟩)

/-- The loop with counter n and bound retries: the remaining iteration
budget retries - n is the structural fuel. -/
def fetchLoop (t : Nat → Option JsonData) (retries : Nat) (n : Nat) :
    Option JsonData × Nat × CallLog :=
  fetchLoopAux t (retries - n) n

/-- Result of get_json_parsed_data: a decoded payload (legacy and
celery_wait modes) or the AsyncResult handle of the submitted job
(celery_submit mode); the handle is identified by the submitted URL. -/
inductive FetchOut where
  | payload (d : JsonData)
  | handle (url : String)
  deriving DecidableEq, Repr

/-- The configuration state of an FMP instance: the attributes set by
FMP.__init__ that the embedded methods read. -/
structure Cfg where
  key : String
  dateStart : String
  silent : Bool
  taskQueuing : TaskQueuing
  timeWaitRetry : Nat
  retries : Nat
  apiAddress : String
  currentYear : Int
  currentQuarter : Int
  workersRunning : Bool
  keyEiUs : String
  mandatorySheets : List String
  deriving DecidableEq

/-- The date_start validation of FMP.__init__ (fmp_api.py lines 108-114):
None defaults to "2000-01-01"; a string must have exactly 10 characters
(assert, so AssertionError), and is stored unchanged. -/
def initDateStart : Option String → Except PyErr String
  | none => .ok "2000-01-01"
  | some s =>
    if s.length = 10 then .ok s
    else .error (.assertionError "Date must be in the format YYYY-MM-DD")

/-- A value of datetime.date.today(): year and month (month in 1..12). -/
structure PyDate where
  year : Int
  month : Nat
  deriving DecidableEq, Repr

/-- FMP.__init__ (the attributes relevant to the embedded methods):
validates date_start, and sets current_year = today.year and
current_quarter = (today.month - 1) // 3 (fmp_api.py lines 108-156). -/
def initFMP (dateStart : Option String) (apiKey : String) (tq : TaskQueuing)
    (retries : Nat) (timeWaitRetry : Nat) (today : PyDate)
    (workersRunning : Bool) (silent : Bool) : Except PyErr Cfg :=
  match initDateStart dateStart with
  | .error e => .error e
  | .ok ds =>
    .ok { key := apiKey
          dateStart := ds
          silent := silent
          taskQueuing := tq
          timeWaitRetry := timeWaitRetry
          retries := retries
          apiAddress := "https://financialmodelingprep.com/api"
          currentYear := today.year
          currentQuarter := (((today.month - 1) / 3 : Nat) : Int)
          workersRunning := workersRunning
          keyEiUs := "FMP-EI-US"
          mandatorySheets := ["Prices", "Meta data"] }

/-- get_json_parsed_data (fmp_api.py lines 719-770).  tr is the transport
(urlopen and JSON decoding) per URL and attempt index; wait models
AsyncResult.wait(propagate=True) on the job submitted for a URL by the
celery_wait mode (an external collaborator); in celery_submit mode the
AsyncResult handle itself is returned. -/
def getJsonParsedData (cfg : Cfg) (tr : String → Nat → Option JsonData)
    (wait : String → Except PyErr JsonData) (url : String) :
    Except PyErr FetchOut × CallLog :=
  match cfg.taskQueuing with
  | .legacy =>
    let r := fetchLoop (tr url) cfg.retries 0
    if cfg.retries ≤ r.2.1 then
      (.error (.requestError ("Request error for the URL: " ++ url)), r.2.2)
    else
      match r.1 with
      | some data =>
        if pyLen data = 0 ∨ hasErrorMessage data then
          (.error (.requestError "Data table not found with FMP API."), r.2.2)
        else (.ok (.payload data), r.2.2)
      | none =>
        (.error (.requestError ("Request error for the URL: " ++ url)), r.2.2)
  | .celeryWait =>
    if cfg.workersRunning then
      match wait url with
      | .ok out => (.ok (.payload out), emptyLog)
      | .error e => (.error e, emptyLog)
    else (.error (.assertionError "Celery workers are not running"), emptyLog)
  | .celerySubmit =>
    if cfg.workersRunning then (.ok (.handle url), emptyLog)
    else (.error (.assertionError "celery_json workers are not running"), emptyLog)

/-- The date_start argument accepted by helper_start_date and
helper_data_auto_period: None, a string, or a boolean. -/
inductive DateStart where
  | none_
  | str (s : String)
  | bool_ (b : Bool)
  deriving DecidableEq, Repr

/-- Value returned by helper_start_date: a date string, the False
sentinel passed through, the raw (non-stringified) store value when
str_date is false, or Python None when the store lookup found nothing. -/
inductive SDResult where
  | str (s : String)
  | fls
  | raw (d : String)
  | none_
  deriving DecidableEq, Repr

/-- helper_start_date (fmp_api.py lines 661-717).  The engine argument
models the SQL store collaborator: none is engine=None, some lk is an
engine whose db.get_latest_date_symbol lookup yields lk (some d = a date,
identified with its date string; none = no date found).  When an engine is
given the lookup result is returned (stringified if strDate); otherwise
date_start is dispatched: None gives self.date_start, a string is returned
unchanged, False is returned unchanged, True raises ValueError. -/
def helperStartDate (cfg : Cfg) (dateStart : DateStart)
    (engine : Option (Option String)) (strDate : Bool) : Except PyErr SDResult :=
  match engine with
  | some lk =>
    match lk with
    | some d => if strDate then .ok (.str d) else .ok (.raw d)
    | none => .ok .none_
  | none =>
    match dateStart with
    | .none_ => .ok (.str cfg.dateStart)
    | .str s => .ok (.str s)
    | .bool_ b =>
      if b then .error (.valueError "date_start must be either a string, boolean or None")
      else .ok .fls

/-- Python truthiness of the resolved start date, as used by
the test `if not date_start` in helper_data_auto_period. -/
def pyFalsy : SDResult → Bool
  | .fls => true
  | .str s => s.isEmpty
  | .none_ => true
  | .raw _ => false

/-- Decimal digit parsing used to model Python int(). -/
def parseNatAux : List Char → Nat → Option Nat
  | [], acc => some acc
  | c :: cs, acc =>
    if 48 ≤ c.toNat ∧ c.toNat ≤ 57 then parseNatAux cs (acc * 10 + (c.toNat - 48))
    else none

/-- Python int() on a non-empty character sequence (optional leading
minus sign, then decimal digits; anything else raises ValueError). -/
def pyIntChars : List Char → Option Int
  | [] => none
  | c :: cs =>
    if c = '-' then
      match cs with
      | [] => none
      | _ => (parseNatAux cs 0).map (fun n => -(n : Int))
    else (parseNatAux (c :: cs) 0).map (fun n => (n : Int))

/-- The expression int(date_start[0:4]) applied to the resolved start
date: subscripting a non-string raises TypeError, and int() of a
non-numeric prefix raises ValueError. -/
def pyIntYear4 : SDResult → Except PyErr Int
  | .str s =>
    match pyIntChars (s.data.take 4) with
    | some n => .ok n
    | none => .error (.valueError "invalid literal for int with base 10")
  | .fls => .error (.typeError "bool object is not subscriptable")
  | .none_ => .error (.typeError "NoneType object is not subscriptable")
  | .raw _ => .error (.typeError "datetime object is not subscriptable")

/-- The f-string "/{symbol}" parsing of helper_data_auto_period
(fmp_api.py lines 793-796). -/
def symbolStr : Option String → String
  | some s => "/" ++ s
  | none => ""

/-- limit_annual = self.current_year - int(date_start[0:4])
(fmp_api.py lines 807 and 822). -/
def limitAnnual (cfg : Cfg) (startYear : Int) : Int := cfg.currentYear - startYear

/-- limit_quarter = 4 * limit_annual + self.current_quarter
(fmp_api.py lines 808 and 817-819). -/
def limitQuarter (cfg : Cfg) (startYear : Int) : Int :=
  4 * limitAnnual cfg startYear + cfg.currentQuarter

/-- URL of the freq_type=None branch without a from-date
(fmp_api.py line 803). -/
def urlNoPeriodNoDate (cfg : Cfg) (series symS additional : String) : String :=
  cfg.apiAddress ++ "/" ++ series ++ symS ++ "?" ++ additional ++ "apikey=" ++ cfg.key

/-- URL of the freq_type=None branch with a from-date (fmp_api.py line 805). -/
def urlNoPeriodFrom (cfg : Cfg) (series symS dateLiaison ds additional : String) : String :=
  cfg.apiAddress ++ "/" ++ series ++ symS ++ dateLiaison ++ "from=" ++ ds ++
    additional ++ "&apikey=" ++ cfg.key

/-- Quarterly-period URL (fmp_api.py lines 811 and 820). -/
def urlQuarter (cfg : Cfg) (series symS : String) (startYear : Int) (additional : String) : String :=
  cfg.apiAddress ++ "/" ++ series ++ symS ++ "?period=quarter&limit=" ++
    toString (limitQuarter cfg startYear) ++ additional ++ "&apikey=" ++ cfg.key

/-- Annual-period URL with the additional string, as built in the auto
fallback (fmp_api.py line 815). -/
def urlAnnual (cfg : Cfg) (series symS : String) (startYear : Int) (additional : String) : String :=
  cfg.apiAddress ++ "/" ++ series ++ symS ++ "?period=annual&limit=" ++
    toString (limitAnnual cfg startYear) ++ additional ++ "&apikey=" ++ cfg.key

/-- Annual-period URL of the explicit annually branch, which omits the
additional string (fmp_api.py line 823). -/
def urlAnnualNoAdd (cfg : Cfg) (series symS : String) (startYear : Int) : String :=
  cfg.apiAddress ++ "/" ++ series ++ symS ++ "?period=annual&limit=" ++
    toString (limitAnnual cfg startYear) ++ "&apikey=" ++ cfg.key

/-- Step 2 of helper_data_auto_period (fmp_api.py lines 827-832): send the
request and map RequestError and HTTPError to a None result.  The second
component accumulates the URLs passed to get_json_parsed_data. -/
def requestStep2 (cfg : Cfg) (tr : String → Nat → Option JsonData)
    (wait : String → Except PyErr JsonData) (url : String) (trace : List String) :
    Except PyErr (Option FetchOut) × List String :=
  match getJsonParsedData cfg tr wait url with
  | (.ok d, _) => (.ok (some d), trace ++ [url])
  | (.error (.requestError _), _) => (.ok none, trace ++ [url])
  | (.error (.httpError _), _) => (.ok none, trace ++ [url])
  | (.error e, _) => (.error e, trace ++ [url])

/-- The freq_type values used by helper_data_auto_period: None, "auto",
"quarterly" or "annually" (any other string raises ValueError). -/
inductive FreqType where
  | noFreq
  | auto
  | quarterly
  | annually
  deriving DecidableEq, Repr

/-- helper_data_auto_period (fmp_api.py lines 772-832).  Returns the data
(Option because a failed request yields None) paired with the list of URLs
passed to get_json_parsed_data, in request order. -/
def helperDataAutoPeriod (cfg : Cfg) (tr : String → Nat → Option JsonData)
    (wait : String → Except PyErr JsonData) (series : String) (symbol : Option String)
    (dateStart : DateStart) (freqType : FreqType)
    (additionalString : String) (dateLiaison : String) :
    Except PyErr (Option FetchOut) × List String :=
  match helperStartDate cfg dateStart none false with
  | .error e => (.error e, [])
  | .ok resolved =>
    let symS := symbolStr symbol
    match freqType with
    | .noFreq =>
      if pyFalsy resolved then
        requestStep2 cfg tr wait (urlNoPeriodNoDate cfg series symS additionalString) []
      else
        match resolved with
        | .str s =>
          requestStep2 cfg tr wait
            (urlNoPeriodFrom cfg series symS dateLiaison s additionalString) []
        | .raw s =>
          requestStep2 cfg tr wait
            (urlNoPeriodFrom cfg series symS dateLiaison s additionalString) []
        | _ => (.error (.typeError "unreachable: falsy values handled above"), [])
    | .auto =>
      match pyIntYear4 resolved with
      | .error e => (.error e, [])
      | .ok sy =>
        let qUrl := urlQuarter cfg series symS sy additionalString
        match getJsonParsedData cfg tr wait qUrl with
        | (.ok d, _) => (.ok (some d), [qUrl])
        | (.error (.requestError _), _) =>
          requestStep2 cfg tr wait (urlAnnual cfg series symS sy additionalString) [qUrl]
        | (.error e, _) => (.error e, [qUrl])
    | .quarterly =>
      match pyIntYear4 resolved with
      | .error e => (.error e, [])
      | .ok sy =>
        requestStep2 cfg tr wait (urlQuarter cfg series symS sy additionalString) []
    | .annually =>
      match pyIntYear4 resolved with
      | .error e => (.error e, [])
      | .ok sy =>
        requestStep2 cfg tr wait (urlAnnualNoAdd cfg series symS sy) []

/- Data frames.  helper_process_dict and the pandas operations of
process_celery_results shape the downloaded JSON into frames indexed by
date; the combine step for the US economic indicators joins one-column
frames.  A frame is modelled as a column list plus rows of (date,
column-to-value cells); a date or column absent from a row is NaN. -/

/-- A pandas DataFrame at the granularity the aggregation logic uses it:
column names, and rows keyed by the date index holding the non-NaN cells. -/
structure DFrame where
  cols : List String
  rows : List (String × List (String × Int))
  deriving DecidableEq, Repr

/-- First-match association lookup (Python dict / pandas index lookup). -/
def lookupAssoc {α : Type} (l : List (String × α)) (k : String) : Option α :=
  (l.find? (fun p => p.1 == k)).map (fun p => p.2)

/-- The date index of a frame. -/
def idxList (df : DFrame) : List String := df.rows.map (fun r => r.1)

/-- The cells of the row at a date (empty if the date is absent). -/
def rowOf (df : DFrame) (d : String) : List (String × Int) :=
  match lookupAssoc df.rows d with
  | some r => r
  | none => []

/-- Cell access: the value at (date, column), none when NaN/absent. -/
def cellVal (df : DFrame) (d c : String) : Option Int :=
  (lookupAssoc df.rows d).bind (fun r => lookupAssoc r c)

/-- df_tmp.rename(columns=Python-dict-mapping "value" to newName)
(fmp_api.py line 414). -/
def renameValueCol (newName : String) (df : DFrame) : DFrame :=
  { cols := df.cols.map (fun c => if c == "value" then newName else c)
    rows := df.rows.map (fun r =>
      (r.1, r.2.map (fun p => (if p.1 == "value" then newName else p.1, p.2)))) }

/-- Union of two date indices, first occurrence kept.  pandas' outer join
additionally sorts this union; the order is not used by any theorem. -/
def unionIdx (l1 l2 : List String) : List String := (l1 ++ l2).dedup

/-- df.join(df_tmp, how="outer", on=None) (fmp_api.py line 415): align on
the date index, keep the union of the indices, concatenate the columns,
NaN where a side lacks a date. -/
def pdJoinOuter (a b : DFrame) : DFrame :=
  { cols := a.cols ++ b.cols
    rows := (unionIdx (idxList a) (idxList b)).map (fun d => (d, rowOf a d ++ rowOf b d)) }

/-- The combine loop of process_celery_results (fmp_api.py lines 412-415):
fold the named indicator frames into one frame, renaming each "value"
column to "(key_ei_us)_(name)" and outer-joining on the date index. -/
def combineFrames (keyEiUs : String) (frames : List (String × DFrame)) : DFrame :=
  frames.foldl
    (fun df p => pdJoinOuter df (renameValueCol (keyEiUs ++ "_" ++ p.1) p.2)) ⟨[], []⟩

/- Batch aggregation: process_celery_results (fmp_api.py lines 345-430). -/

/-- The value cc.celery_process_results yields for one consumed handle:
the "FAILURE" marker string, or the downloaded JSON payload. -/
inductive CeleryOut where
  | failureStr
  | payload (d : JsonData)
  deriving DecidableEq, Repr

/-- helper_process_dict as seen by process_celery_results: for a sheet and
a payload it either returns a processed value (a frame, or None for empty
data) or raises RequestError.  The pandas construction inside it is
dataframe shaping performed by external collaborators, so it is a
parameter of the aggregation. -/
abbrev ProcFun := String → JsonData → Except Unit (Option DFrame)

/-- A collected batch: sheet name to (symbol to consumed handle value). -/
abbrev Batch := List (String × List (String × CeleryOut))

/-- A processed batch: sheet name to (symbol to processed value). -/
abbrev ProcBatch := List (String × List (String × Option DFrame))

def sheetNames (d : Batch) : List String := d.map (fun p => p.1)

def pSheetNames (dp : ProcBatch) : List String := dp.map (fun p => p.1)

def symbolNames {α : Type} (cells : List (String × α)) : List String :=
  cells.map (fun c => c.1)

/-- Whether processing one cell takes the except-RequestError path of
process_celery_results: either the task failed ("FAILURE"), or
helper_process_dict raised. -/
def cellFails (proc : ProcFun) (sheet : String) : CeleryOut → Bool
  | .failureStr => true
  | .payload d =>
    match proc sheet d with
    | .ok _ => false
    | .error _ => true

/-- The value stored in dp for one cell: the processed value on success,
None when the RequestError path was taken (both the mandatory and the
non-mandatory arm store None, fmp_api.py lines 400-406). -/
def evalCell (proc : ProcFun) (sheet : String) : CeleryOut → Option DFrame
  | .failureStr => none
  | .payload d =>
    match proc sheet d with
    | .ok v => v
    | .error _ => none

/-- Step 1.1 of process_celery_results: process every sheet and symbol
(fmp_api.py lines 382-408). -/
def step1Process (proc : ProcFun) (d : Batch) : ProcBatch :=
  d.map (fun sh => (sh.1, sh.2.map (fun c => (c.1, evalCell proc sh.1 c.2))))

/-- The symbols_to_remove list accumulated during step 1.1: for each
mandatory sheet, the symbols whose cell took the RequestError path, in
iteration order (fmp_api.py lines 402-403). -/
def symbolsToRemoveList (proc : ProcFun) (mandatory : List String) (d : Batch) :
    List String :=
  d.flatMap (fun sh =>
    if mandatory.contains sh.1 then
      (sh.2.filter (fun c => cellFails proc sh.1 c.2)).map (fun c => c.1)
    else [])

/-- Membership formulation of the removal record: the symbol's cell took
the RequestError path on at least one mandatory sheet. -/
def failsMandatory (proc : ProcFun) (mandatory : List String) (d : Batch)
    (sym : String) : Bool :=
  d.any (fun sh => mandatory.contains sh.1 &&
    sh.2.any (fun c => c.1 == sym && cellFails proc sh.1 c.2))

/-- The iteration of dp[self.key_ei_us].items() during the combine step:
every stored value must be a frame (df_tmp.rename on None raises
AttributeError). -/
def getFrames : List (String × Option DFrame) → Except PyErr (List (String × DFrame))
  | [] => .ok []
  | (_, none) :: _ => .error (.attributeError "NoneType object has no attribute rename")
  | (n, some f) :: rest =>
    match getFrames rest with
    | .ok l => .ok ((n, f) :: l)
    | .error e => .error e

/-- Step 1.2 of process_celery_results (fmp_api.py lines 410-416): if the
US economic indicators key is present, replace its entry by the single
combined frame under the "combined" key. -/
def combineStep (cfg : Cfg) (dp : ProcBatch) : Except PyErr ProcBatch :=
  match lookupAssoc dp cfg.keyEiUs with
  | none => .ok dp
  | some cells =>
    match getFrames cells with
    | .error e => .error e
    | .ok frames =>
      .ok (dp.map (fun p =>
        if p.1 == cfg.keyEiUs then
          (p.1, [("combined", some (combineFrames cfg.keyEiUs frames))])
        else p))

/-- One iteration of the removal loop: del dp[sheet][symbol] for every
sheet (fmp_api.py lines 422-424); a Python del of an absent key raises
KeyError. -/
def delSymbolAll (dp : ProcBatch) (sym : String) : Except PyErr ProcBatch :=
  dp.mapM (fun p =>
    if p.2.any (fun c => c.1 == sym) then
      .ok (p.1, p.2.eraseP (fun c => c.1 == sym))
    else .error (.keyError sym))

/-- Step 2.1 of process_celery_results: remove every recorded symbol from
every sheet. -/
def removeSymbols (dp : ProcBatch) (syms : List String) : Except PyErr ProcBatch :=
  syms.foldlM delSymbolAll dp

/-- The mandatory_sheets argument of process_celery_results: a boolean, a
list, or None (fmp_api.py lines 348 and 362-368). -/
inductive MandArg where
  | bool_ (b : Bool)
  | list_ (l : List String)
  | none_

/-- Normalisation of the mandatory_sheets argument: True means
self.mandatory_sheets, None means no mandatory sheets, a list is used as
given, and False fails the isinstance-list assertion. -/
def normalizeMandatory (cfg : Cfg) : MandArg → Except PyErr (List String)
  | .bool_ true => .ok cfg.mandatorySheets
  | .bool_ false => .error (.assertionError "the mandatory_sheets input must be a list or None")
  | .none_ => .ok []
  | .list_ l => .ok l

/-- process_celery_results (fmp_api.py lines 345-430): process every cell,
combine the US economic indicators sheet if present, then remove every
symbol recorded against a mandatory sheet from every sheet.  The
deduplication list(set(symbols_to_remove)) is modelled by dedup; the
resulting removal set is the same. -/
def processCeleryResults (cfg : Cfg) (proc : ProcFun) (mandatoryArg : MandArg)
    (d : Batch) : Except PyErr ProcBatch :=
  match normalizeMandatory cfg mandatoryArg with
  | .error e => .error e
  | .ok mandatory =>
    let dp1 := step1Process proc d
    let toRemove := (symbolsToRemoveList proc mandatory d).dedup
    match combineStep cfg dp1 with
    | .error e => .error e
    | .ok dp2 => removeSymbols dp2 toRemove

/-- Cell lookup in a processed batch: some (some f) holds a frame,
some none means the cell is present and holds Python None, none means the
sheet or the symbol is absent. -/
def lookupCell (dp : ProcBatch) (sheet sym : String) : Option (Option DFrame) :=
  (lookupAssoc dp sheet).bind (fun cells => lookupAssoc cells sym)

/- Query-window model for the period resolver.  The record limits are
computed above (limitQuarter, limitAnnual); what span of time a
limit-style request covers is remote-API behaviour, modelled from the
spec. -/

/-- Modelled from the spec: the remote returns the latest limit records
ending at the current period, so a quarterly request covers the
quarter-index window from currentQuarterIdx - limit + 1 up to
currentQuarterIdx, where a quarter index is 4 times the year plus the
zero-based quarter. -/
def currentQuarterIdx (cfg : Cfg) : Int := 4 * cfg.currentYear + cfg.currentQuarter

/-- Modelled from the spec: the earliest quarter index covered by a
quarterly request with the given record limit. -/
def earliestCoveredQuarterIdx (cfg : Cfg) (limit : Int) : Int :=
  currentQuarterIdx cfg - limit + 1

/-- Modelled from the spec: the quarter index containing a start date
with the given year and month (month in 1..12). -/
def startQuarterIdx (startYear : Int) (startMonth : Nat) : Int :=
  4 * startYear + (((startMonth - 1) / 3 : Nat) : Int)

/-- Modelled from the spec: the earliest year covered by an annual
request with the given record limit. -/
def earliestCoveredYear (cfg : Cfg) (limit : Int) : Int :=
  cfg.currentYear - limit + 1

/- Concrete fixtures used by the witnesses and counterexamples. -/

/-- A legacy-mode configuration as FMP.__init__ builds it for
date_start="2000-01-01" on 2023-11-15 (current_quarter = (11-1)//3 = 3). -/
def baseCfg : Cfg :=
  { key := "KEY"
    dateStart := "2000-01-01"
    silent := true
    taskQueuing := .legacy
    timeWaitRetry := 10
    retries := 3
    apiAddress := "https://financialmodelingprep.com/api"
    currentYear := 2023
    currentQuarter := ((11 - 1) / 3 : Nat)
    workersRunning := false
    keyEiUs := "FMP-EI-US"
    mandatorySheets := ["Prices", "Meta data"] }

/-- The same configuration in celery_submit mode with workers running. -/
def submitCfg : Cfg :=
  { baseCfg with taskQueuing := .celerySubmit, workersRunning := true }

/-- A transport that always fails with a connection-level error. -/
def trFail : String → Nat → Option JsonData := fun _ _ => none

/-- A transport that always succeeds with a one-element payload. -/
def trOK : String → Nat → Option JsonData := fun _ _ => some (.arr 1)

/-- A transport that fails on the first attempt and succeeds afterwards. -/
def trOnce : String → Nat → Option JsonData :=
  fun _ n => if n = 0 then none else some (.arr 5)

/-- A wait collaborator that is never reached in the scenarios used. -/
def waitNone : String → Except PyErr JsonData :=
  fun _ => .error (.requestError "no result")

/-- A transport whose payload is an explicit upstream error envelope. -/
def trErrMsg : String → Nat → Option JsonData :=
  fun _ _ => some (.obj ["Error Message"])

/-- A small processed frame used by the batch fixtures. -/
def dfX : DFrame := ⟨["open"], [("2023-01-02", [("open", 7)])]⟩

/-- A processing collaborator that accepts every payload. -/
def procSome : ProcFun := fun _ _ => .ok (some dfX)

/-- The mandatory-pruning scenario batch: series Prices (mandatory) and
Income; symbol A fails on Prices and succeeds on Income, symbol B
succeeds on both. -/
def dC1 : Batch :=
  [("Prices", [("A", .failureStr), ("B", .payload (.arr 1))]),
   ("Income", [("A", .payload (.arr 1)), ("B", .payload (.arr 1))])]

/-- Indicator frame fixture: a GDP series indexed by date with a value
column. -/
def dfGDP : DFrame :=
  ⟨["value"], [("2020-01-01", [("value", 100)]), ("2020-04-01", [("value", 101)])]⟩

/-- Indicator frame fixture: a CPI series indexed by date with a value
column, sharing one date with dfGDP. -/
def dfCPI : DFrame :=
  ⟨["value"], [("2020-01-01", [("value", 7)]), ("2020-07-01", [("value", 8)])]⟩

/-- A processing collaborator mapping the two macro payloads to the two
indicator frames. -/
def procC8 : ProcFun := fun _ d =>
  match d with
  | .arr 1 => .ok (some dfGDP)
  | .arr 2 => .ok (some dfCPI)
  | _ => .error ()

/-- A collected batch holding the composite US-economic-indicators series
with two indicators. -/
def dC8 : Batch :=
  [("FMP-EI-US", [("GDP", .payload (.arr 1)), ("CPI", .payload (.arr 2))])]

/-- The indicator frames of dC8 after processing. -/
def framesC8 : List (String × DFrame) := [("GDP", dfGDP), ("CPI", dfCPI)]

/- Theorems.  General lemmas about the embedded operations come first,
followed by one theorem per specification claim (with witnesses and
counterexamples). -/

theorem fetchLoop_stop (t : Nat → Option JsonData) (retries n : Nat) (h : ¬ n < retries) :
    fetchLoop t retries n = (none, n, emptyLog) := by
  rw [fetchLoop, show retries - n = 0 from by omega]
  rfl

theorem fetchLoop_step_some (t : Nat → Option JsonData) (retries n : Nat) (r : JsonData)
    (h : n < retries) (ht : t n = some r) :
    fetchLoop t retries n = (some r, n, ⟨1, 1, 0⟩) := by
  rw [fetchLoop, show retries - n = (retries - (n + 1)) + 1 from by omega]
  simp [fetchLoopAux, ht]

theorem fetchLoop_step_none (t : Nat → Option JsonData) (retries n : Nat)
    (h : n < retries) (ht : t n = none) :
    fetchLoop t retries n =
      ((fetchLoop t retries (n + 1)).1, (fetchLoop t retries (n + 1)).2.1,
       ⟨(fetchLoop t retries (n + 1)).2.2.calls + 1,
        (fetchLoop t retries (n + 1)).2.2.querySleeps + 1,
        (fetchLoop t retries (n + 1)).2.2.retrySleeps + 1⟩) := by
  rw [fetchLoop, show retries - n = (retries - (n + 1)) + 1 from by omega]
  simp only [fetchLoopAux, ht, fetchLoop]

theorem fetchLoop_all_fail (t : Nat → Option JsonData) (retries : Nat) :
    ∀ n, n ≤ retries → (∀ i, n ≤ i → i < retries → t i = none) →
      fetchLoop t retries n = (none, retries, ⟨retries - n, retries - n, retries - n⟩) := by
  have main : ∀ fuel n, retries - n = fuel → n ≤ retries →
      (∀ i, n ≤ i → i < retries → t i = none) →
      fetchLoop t retries n = (none, retries, ⟨retries - n, retries - n, retries - n⟩) := by
    intro fuel
    induction fuel with
    | zero =>
      intro n hfu hn _
      have hz : n = retries := by omega
      subst hz
      rw [fetchLoop_stop t n n (by omega)]
      simp [emptyLog]
    | succ f ih =>
      intro n hfu hn hf
      have hlt : n < retries := by omega
      rw [fetchLoop_step_none t retries n hlt (hf n (by omega) hlt)]
      rw [ih (n + 1) (by omega) (by omega) (fun i h1 h2 => hf i (by omega) h2)]
      simp only [Prod.mk.injEq, CallLog.mk.injEq, eq_self_iff_true, true_and, and_true]
      omega
  exact fun n hn hf => main (retries - n) n rfl hn hf

theorem fetchLoop_succeeds (t : Nat → Option JsonData) (retries : Nat) :
    ∀ k n d, n + k < retries → (∀ i, i < k → t (n + i) = none) → t (n + k) = some d →
      fetchLoop t retries n = (some d, n + k, ⟨k + 1, k + 1, k⟩) := by
  intro k
  induction k with
  | zero =>
    intro n d h _ hs
    rw [fetchLoop_step_some t retries n d (by omega) (by simpa using hs)]
    simp
  | succ k ih =>
    intro n d h hf hs
    have h0 : t n = none := by simpa using hf 0 (by omega)
    rw [fetchLoop_step_none t retries n (by omega) h0]
    have hf1 : ∀ i, i < k → t (n + 1 + i) = none := by
      intro i hi
      have := hf (i + 1) (by omega)
      rw [show n + 1 + i = n + (i + 1) from by omega]
      exact this
    have hs1 : t (n + 1 + k) = some d := by
      rw [show n + 1 + k = n + (k + 1) from by omega]
      exact hs
    rw [ih (n + 1) d (by omega) hf1 hs1]
    simp only [Prod.mk.injEq, CallLog.mk.injEq, eq_self_iff_true, true_and, and_true]
    omega

/-- C2: for the direct (legacy) strategy, a transport that fails with a
connection-level error on the first k attempts (k below retries) and then
delivers a usable payload makes the method return that payload after
exactly k+1 transport calls; a transport that fails on every attempt makes
the method fail, after exactly retries transport calls, with the
retries-exhausted RequestError naming the URL. -/
theorem claim_c2 (cfg : Cfg) (tr : String → Nat → Option JsonData)
    (wait : String → Except PyErr JsonData) (url : String) (k : Nat) (d : JsonData)
    (hm : cfg.taskQueuing = .legacy) :
    (k < cfg.retries → (∀ i, i < k → tr url i = none) → tr url k = some d →
      pyLen d ≠ 0 → hasErrorMessage d = false →
      getJsonParsedData cfg tr wait url = (.ok (.payload d), ⟨k + 1, k + 1, k⟩))
    ∧ ((∀ i, i < cfg.retries → tr url i = none) →
      getJsonParsedData cfg tr wait url =
        (.error (.requestError ("Request error for the URL: " ++ url)),
         ⟨cfg.retries, cfg.retries, cfg.retries⟩)) := by
  constructor
  · intro hk hf hs hne herr
    have hl := fetchLoop_succeeds (tr url) cfg.retries k 0 d (by omega)
      (fun i hi => by simpa using hf i hi) (by simpa using hs)
    simp only [getJsonParsedData, hm]
    rw [hl]
    simp only [Nat.zero_add]
    rw [if_neg (by omega)]
    rw [if_neg (by simp [hne, herr])]
  · intro hf
    have hl := fetchLoop_all_fail (tr url) cfg.retries 0 (by omega)
      (fun i _ hi => hf i hi)
    simp only [getJsonParsedData, hm]
    rw [hl]
    simp

/-- C2 witness: with retries = 3, a transport failing once then
succeeding returns the payload in 2 calls, and an always-failing
transport exhausts exactly 3 calls and fails naming the URL. -/
theorem claim_c2_witness :
    baseCfg.taskQueuing = .legacy
    ∧ getJsonParsedData baseCfg trOnce waitNone "u" = (.ok (.payload (.arr 5)), ⟨2, 2, 1⟩)
    ∧ getJsonParsedData baseCfg trFail waitNone "u" =
        (.error (.requestError ("Request error for the URL: " ++ "u")), ⟨3, 3, 3⟩) := by
  refine ⟨rfl, ?_, ?_⟩
  · exact (claim_c2 baseCfg trOnce waitNone "u" 1 (.arr 5) rfl).1 (by decide)
      (fun i hi => by interval_cases i; rfl) rfl (by decide) rfl
  · exact (claim_c2 baseCfg trFail waitNone "u" 0 (.arr 0) rfl).2 (fun i _ => rfl)

/-- C4: in legacy mode, when the first transport attempt succeeds but the
decoded payload has zero elements or carries an explicit error-message
field, the request fails immediately with the no-data RequestError after
exactly one transport call, one pre-query sleep and zero backoff sleeps
(no retry). -/
theorem claim_c4 (cfg : Cfg) (tr : String → Nat → Option JsonData)
    (wait : String → Except PyErr JsonData) (url : String) (d : JsonData)
    (hm : cfg.taskQueuing = .legacy) (hr : 0 < cfg.retries)
    (h0 : tr url 0 = some d) (hbad : pyLen d = 0 ∨ hasErrorMessage d = true) :
    getJsonParsedData cfg tr wait url =
      (.error (.requestError "Data table not found with FMP API."), ⟨1, 1, 0⟩) := by
  have hl := fetchLoop_succeeds (tr url) cfg.retries 0 0 d (by omega)
    (fun i hi => by omega) (by simpa using h0)
  simp only [getJsonParsedData, hm]
  rw [hl]
  simp only [Nat.zero_add, Nat.add_zero]
  rw [if_neg (by omega)]
  rw [if_pos (by rcases hbad with h | h; exact Or.inl h; exact Or.inr (by simp [h]))]

/-- C4 witness: a payload that is an error envelope fails at once with
one transport call and no backoff sleep. -/
theorem claim_c4_witness :
    baseCfg.taskQueuing = .legacy ∧ 0 < baseCfg.retries
    ∧ trErrMsg "u" 0 = some (.obj ["Error Message"])
    ∧ (pyLen (.obj ["Error Message"]) = 0 ∨ hasErrorMessage (.obj ["Error Message"]) = true)
    ∧ getJsonParsedData baseCfg trErrMsg waitNone "u" =
        (.error (.requestError "Data table not found with FMP API."), ⟨1, 1, 0⟩) := by
  refine ⟨rfl, by decide, rfl, by decide, ?_⟩
  exact claim_c4 baseCfg trErrMsg waitNone "u" (.obj ["Error Message"]) rfl (by decide)
    rfl (by decide)

theorem requestStep2_trace (cfg : Cfg) (tr : String → Nat → Option JsonData)
    (wait : String → Except PyErr JsonData) (url : String) (trace : List String) :
    (requestStep2 cfg tr wait url trace).2 = trace ++ [url] := by
  rcases hg : getJsonParsedData cfg tr wait url with ⟨r, log⟩
  rcases r with e | d
  · cases e <;> simp [requestStep2, hg]
  · simp [requestStep2, hg]

theorem helperAuto_eval (cfg : Cfg) (tr : String → Nat → Option JsonData)
    (wait : String → Except PyErr JsonData) (series : String) (symbol : Option String)
    (s : String) (sy : Int) (add dl : String)
    (hs : pyIntYear4 (.str s) = .ok sy) :
    helperDataAutoPeriod cfg tr wait series symbol (.str s) .auto add dl
      = (match getJsonParsedData cfg tr wait (urlQuarter cfg series (symbolStr symbol) sy add) with
         | (.ok d, _) => (.ok (some d), [urlQuarter cfg series (symbolStr symbol) sy add])
         | (.error (.requestError _), _) =>
           requestStep2 cfg tr wait (urlAnnual cfg series (symbolStr symbol) sy add)
             [urlQuarter cfg series (symbolStr symbol) sy add]
         | (.error e, _) => (.error e, [urlQuarter cfg series (symbolStr symbol) sy add])) := by
  simp only [helperDataAutoPeriod, helperStartDate, hs]

theorem helperQuarterly_eval (cfg : Cfg) (tr : String → Nat → Option JsonData)
    (wait : String → Except PyErr JsonData) (series : String) (symbol : Option String)
    (s : String) (sy : Int) (add dl : String)
    (hs : pyIntYear4 (.str s) = .ok sy) :
    helperDataAutoPeriod cfg tr wait series symbol (.str s) .quarterly add dl
      = requestStep2 cfg tr wait (urlQuarter cfg series (symbolStr symbol) sy add) [] := by
  simp only [helperDataAutoPeriod, helperStartDate, hs]

theorem helperAnnually_eval (cfg : Cfg) (tr : String → Nat → Option JsonData)
    (wait : String → Except PyErr JsonData) (series : String) (symbol : Option String)
    (s : String) (sy : Int) (add dl : String)
    (hs : pyIntYear4 (.str s) = .ok sy) :
    helperDataAutoPeriod cfg tr wait series symbol (.str s) .annually add dl
      = requestStep2 cfg tr wait (urlAnnualNoAdd cfg series (symbolStr symbol) sy) [] := by
  simp only [helperDataAutoPeriod, helperStartDate, hs]

/-- C3: in auto mode the quarterly request is always attempted first:
the request trace is either just the quarterly URL or the quarterly URL
followed by the annual URL; when the quarterly request succeeds its result
is returned and nothing else is requested; and the annual URL is requested
exactly when the quarterly request failed with RequestError. -/
theorem claim_c3 (cfg : Cfg) (tr : String → Nat → Option JsonData)
    (wait : String → Except PyErr JsonData) (series : String) (symbol : Option String)
    (s : String) (sy : Int) (add dl : String)
    (hs : pyIntYear4 (.str s) = .ok sy) :
    ((helperDataAutoPeriod cfg tr wait series symbol (.str s) .auto add dl).2
        = [urlQuarter cfg series (symbolStr symbol) sy add]
      ∨ (helperDataAutoPeriod cfg tr wait series symbol (.str s) .auto add dl).2
        = [urlQuarter cfg series (symbolStr symbol) sy add,
           urlAnnual cfg series (symbolStr symbol) sy add])
    ∧ (∀ d, (getJsonParsedData cfg tr wait
          (urlQuarter cfg series (symbolStr symbol) sy add)).1 = .ok d →
        helperDataAutoPeriod cfg tr wait series symbol (.str s) .auto add dl
          = (.ok (some d), [urlQuarter cfg series (symbolStr symbol) sy add]))
    ∧ ((helperDataAutoPeriod cfg tr wait series symbol (.str s) .auto add dl).2
          = [urlQuarter cfg series (symbolStr symbol) sy add,
             urlAnnual cfg series (symbolStr symbol) sy add]
        ↔ ∃ m, (getJsonParsedData cfg tr wait
            (urlQuarter cfg series (symbolStr symbol) sy add)).1
          = .error (.requestError m)) := by
  have heval := helperAuto_eval cfg tr wait series symbol s sy add dl hs
  rcases hg : getJsonParsedData cfg tr wait (urlQuarter cfg series (symbolStr symbol) sy add)
    with ⟨r, log⟩
  rw [hg] at heval
  rcases r with e | d
  · rcases e with m | m | m | m | m | m | m
    · -- RequestError: fallback to the annual URL
      simp only at heval
      have htr := requestStep2_trace cfg tr wait
        (urlAnnual cfg series (symbolStr symbol) sy add)
        [urlQuarter cfg series (symbolStr symbol) sy add]
      refine ⟨Or.inr (by rw [heval]; simpa using htr), ?_, ?_⟩
      · intro d hd
        exact absurd hd (by simp)
      · constructor
        · intro _
          exact ⟨m, rfl⟩
        · intro _
          rw [heval]
          simpa using htr
    all_goals
      simp only at heval
      refine ⟨Or.inl (by rw [heval]), ?_, ?_⟩
      · intro d hd
        exact absurd hd (by simp)
      · constructor
        · intro hc
          rw [heval] at hc
          simp at hc
        · intro hc
          rcases hc with ⟨m2, hm2⟩
          exact absurd hm2 (by simp)
  · simp only at heval
    refine ⟨Or.inl (by rw [heval]), ?_, ?_⟩
    · intro d2 hd
      obtain rfl : d = d2 := by simpa using hd
      exact heval
    · constructor
      · intro hc
        rw [heval] at hc
        simp at hc
      · intro hc
        rcases hc with ⟨m2, hm2⟩
        exact absurd hm2 (by simp)

/-- C3 witness: with an always-failing legacy transport the quarterly
URL is requested first and the annual URL after its RequestError. -/
theorem claim_c3_witness :
    pyIntYear4 (.str "2020-01-01") = .ok 2020
    ∧ (((helperDataAutoPeriod baseCfg trFail waitNone "v3/income-statement" (some "MSFT")
          (.str "2020-01-01") .auto "" "?").2
        = [urlQuarter baseCfg "v3/income-statement" (symbolStr (some "MSFT")) 2020 ""]
      ∨ (helperDataAutoPeriod baseCfg trFail waitNone "v3/income-statement" (some "MSFT")
          (.str "2020-01-01") .auto "" "?").2
        = [urlQuarter baseCfg "v3/income-statement" (symbolStr (some "MSFT")) 2020 "",
           urlAnnual baseCfg "v3/income-statement" (symbolStr (some "MSFT")) 2020 ""])
    ∧ (∀ d, (getJsonParsedData baseCfg trFail waitNone
          (urlQuarter baseCfg "v3/income-statement" (symbolStr (some "MSFT")) 2020 "")).1 = .ok d →
        helperDataAutoPeriod baseCfg trFail waitNone "v3/income-statement" (some "MSFT")
            (.str "2020-01-01") .auto "" "?"
          = (.ok (some d), [urlQuarter baseCfg "v3/income-statement" (symbolStr (some "MSFT")) 2020 ""]))
    ∧ ((helperDataAutoPeriod baseCfg trFail waitNone "v3/income-statement" (some "MSFT")
            (.str "2020-01-01") .auto "" "?").2
          = [urlQuarter baseCfg "v3/income-statement" (symbolStr (some "MSFT")) 2020 "",
             urlAnnual baseCfg "v3/income-statement" (symbolStr (some "MSFT")) 2020 ""]
        ↔ ∃ m, (getJsonParsedData baseCfg trFail waitNone
            (urlQuarter baseCfg "v3/income-statement" (symbolStr (some "MSFT")) 2020 "")).1
          = .error (.requestError m))) :=
  ⟨by decide,
   claim_c3 baseCfg trFail waitNone "v3/income-statement" (some "MSFT") "2020-01-01" 2020 "" "?"
     (by decide)⟩

theorem helperAuto_trace_sub (cfg : Cfg) (tr : String → Nat → Option JsonData)
    (wait : String → Except PyErr JsonData) (series : String) (symbol : Option String)
    (s : String) (sy : Int) (add dl : String)
    (hs : pyIntYear4 (.str s) = .ok sy) :
    (helperDataAutoPeriod cfg tr wait series symbol (.str s) .auto add dl).2
      = [urlQuarter cfg series (symbolStr symbol) sy add]
    ∨ (helperDataAutoPeriod cfg tr wait series symbol (.str s) .auto add dl).2
      = [urlQuarter cfg series (symbolStr symbol) sy add,
         urlAnnual cfg series (symbolStr symbol) sy add] := by
  have heval := helperAuto_eval cfg tr wait series symbol s sy add dl hs
  rcases hg : getJsonParsedData cfg tr wait (urlQuarter cfg series (symbolStr symbol) sy add)
    with ⟨r, log⟩
  rw [hg] at heval
  rcases r with e | d
  · rcases e with m | m | m | m | m | m | m
    · simp only at heval
      right
      rw [heval]
      simpa using requestStep2_trace cfg tr wait
        (urlAnnual cfg series (symbolStr symbol) sy add)
        [urlQuarter cfg series (symbolStr symbol) sy add]
    all_goals
      simp only at heval
      left
      rw [heval]
  · simp only at heval
    left
    rw [heval]

/-- C7: with the calendar attributes set by the constructor for a given
today (year y, month m), every quarterly request URL (auto and explicit
quarterly modes) carries limit = 4 * (y - startYear) + (m - 1) / 3, and
every annual request URL (explicit annually mode and the auto fallback)
carries limit = y - startYear. -/
theorem claim_c7 (ds0 : Option String) (apiKey : String) (tq : TaskQueuing)
    (retries twr : Nat) (y : Int) (m : Nat) (wr sil : Bool) (cfg : Cfg)
    (tr : String → Nat → Option JsonData) (wait : String → Except PyErr JsonData)
    (series : String) (symbol : Option String) (s : String) (sy : Int) (add dl : String)
    (hc : initFMP ds0 apiKey tq retries twr ⟨y, m⟩ wr sil = .ok cfg)
    (hs : pyIntYear4 (.str s) = .ok sy) :
    ((helperDataAutoPeriod cfg tr wait series symbol (.str s) .quarterly add dl).2
      = [cfg.apiAddress ++ "/" ++ series ++ symbolStr symbol ++ "?period=quarter&limit="
          ++ toString (4 * (y - sy) + (((m - 1) / 3 : Nat) : Int)) ++ add ++ "&apikey=" ++ cfg.key])
    ∧ ((helperDataAutoPeriod cfg tr wait series symbol (.str s) .annually add dl).2
      = [cfg.apiAddress ++ "/" ++ series ++ symbolStr symbol ++ "?period=annual&limit="
          ++ toString (y - sy) ++ "&apikey=" ++ cfg.key])
    ∧ ((helperDataAutoPeriod cfg tr wait series symbol (.str s) .auto add dl).2.head?
      = some (cfg.apiAddress ++ "/" ++ series ++ symbolStr symbol ++ "?period=quarter&limit="
          ++ toString (4 * (y - sy) + (((m - 1) / 3 : Nat) : Int)) ++ add ++ "&apikey=" ++ cfg.key))
    ∧ (∀ u ∈ (helperDataAutoPeriod cfg tr wait series symbol (.str s) .auto add dl).2,
        u = cfg.apiAddress ++ "/" ++ series ++ symbolStr symbol ++ "?period=quarter&limit="
          ++ toString (4 * (y - sy) + (((m - 1) / 3 : Nat) : Int)) ++ add ++ "&apikey=" ++ cfg.key
        ∨ u = cfg.apiAddress ++ "/" ++ series ++ symbolStr symbol ++ "?period=annual&limit="
          ++ toString (y - sy) ++ add ++ "&apikey=" ++ cfg.key) := by
  rcases h0 : initDateStart ds0 with e | d0
  · unfold initFMP at hc
    rw [h0] at hc
    simp at hc
  · unfold initFMP at hc
    rw [h0] at hc
    injection hc with h
    subst h
    have hq : urlQuarter
        { key := apiKey, dateStart := d0, silent := sil, taskQueuing := tq,
          timeWaitRetry := twr, retries := retries,
          apiAddress := "https://financialmodelingprep.com/api",
          currentYear := y, currentQuarter := (((m - 1) / 3 : Nat) : Int),
          workersRunning := wr, keyEiUs := "FMP-EI-US",
          mandatorySheets := ["Prices", "Meta data"] }
        series (symbolStr symbol) sy add
      = "https://financialmodelingprep.com/api" ++ "/" ++ series ++ symbolStr symbol
        ++ "?period=quarter&limit=" ++ toString (4 * (y - sy) + (((m - 1) / 3 : Nat) : Int))
        ++ add ++ "&apikey=" ++ apiKey := by
      simp [urlQuarter, limitQuarter, limitAnnual]
    have ha : urlAnnual
        { key := apiKey, dateStart := d0, silent := sil, taskQueuing := tq,
          timeWaitRetry := twr, retries := retries,
          apiAddress := "https://financialmodelingprep.com/api",
          currentYear := y, currentQuarter := (((m - 1) / 3 : Nat) : Int),
          workersRunning := wr, keyEiUs := "FMP-EI-US",
          mandatorySheets := ["Prices", "Meta data"] }
        series (symbolStr symbol) sy add
      = "https://financialmodelingprep.com/api" ++ "/" ++ series ++ symbolStr symbol
        ++ "?period=annual&limit=" ++ toString (y - sy) ++ add ++ "&apikey=" ++ apiKey := by
      simp [urlAnnual, limitAnnual]
    have hend : urlAnnualNoAdd
        { key := apiKey, dateStart := d0, silent := sil, taskQueuing := tq,
          timeWaitRetry := twr, retries := retries,
          apiAddress := "https://financialmodelingprep.com/api",
          currentYear := y, currentQuarter := (((m - 1) / 3 : Nat) : Int),
          workersRunning := wr, keyEiUs := "FMP-EI-US",
          mandatorySheets := ["Prices", "Meta data"] }
        series (symbolStr symbol) sy
      = "https://financialmodelingprep.com/api" ++ "/" ++ series ++ symbolStr symbol
        ++ "?period=annual&limit=" ++ toString (y - sy) ++ "&apikey=" ++ apiKey := by
      simp [urlAnnualNoAdd, limitAnnual]
    refine ⟨?_, ?_, ?_, ?_⟩
    · rw [helperQuarterly_eval _ tr wait series symbol s sy add dl hs, requestStep2_trace, hq]
      simp
    · rw [helperAnnually_eval _ tr wait series symbol s sy add dl hs, requestStep2_trace, hend]
      simp
    · rcases helperAuto_trace_sub _ tr wait series symbol s sy add dl hs with ht | ht <;>
        rw [ht, hq] <;> simp
    · intro u hu
      rcases helperAuto_trace_sub _ tr wait series symbol s sy add dl hs with ht | ht <;>
        rw [ht] at hu
      · rw [hq] at hu
        simp at hu
        exact Or.inl hu
      · rw [hq, ha] at hu
        simp at hu
        exact hu

/-- C7 witness: today 2023-11 (current quarter index 3), start year 2015:
the quarterly URLs carry limit 4 * 8 + 3 = 35 and the annual URLs limit 8. -/
theorem claim_c7_witness :
    initFMP (some "2000-01-01") "KEY" .legacy 3 10 ⟨2023, 11⟩ false true = .ok baseCfg
    ∧ pyIntYear4 (.str "2015-06-30") = .ok 2015
    ∧ (((helperDataAutoPeriod baseCfg trOK waitNone "v3/ratios" (some "IBM")
          (.str "2015-06-30") .quarterly "" "?").2
        = [baseCfg.apiAddress ++ "/" ++ "v3/ratios" ++ symbolStr (some "IBM")
            ++ "?period=quarter&limit="
            ++ toString (4 * ((2023 : Int) - 2015) + (((11 - 1) / 3 : Nat) : Int))
            ++ "" ++ "&apikey=" ++ baseCfg.key])
      ∧ ((helperDataAutoPeriod baseCfg trOK waitNone "v3/ratios" (some "IBM")
          (.str "2015-06-30") .annually "" "?").2
        = [baseCfg.apiAddress ++ "/" ++ "v3/ratios" ++ symbolStr (some "IBM")
            ++ "?period=annual&limit=" ++ toString ((2023 : Int) - 2015)
            ++ "&apikey=" ++ baseCfg.key])
      ∧ ((helperDataAutoPeriod baseCfg trOK waitNone "v3/ratios" (some "IBM")
          (.str "2015-06-30") .auto "" "?").2.head?
        = some (baseCfg.apiAddress ++ "/" ++ "v3/ratios" ++ symbolStr (some "IBM")
            ++ "?period=quarter&limit="
            ++ toString (4 * ((2023 : Int) - 2015) + (((11 - 1) / 3 : Nat) : Int))
            ++ "" ++ "&apikey=" ++ baseCfg.key))
      ∧ (∀ u ∈ (helperDataAutoPeriod baseCfg trOK waitNone "v3/ratios" (some "IBM")
            (.str "2015-06-30") .auto "" "?").2,
          u = baseCfg.apiAddress ++ "/" ++ "v3/ratios" ++ symbolStr (some "IBM")
            ++ "?period=quarter&limit="
            ++ toString (4 * ((2023 : Int) - 2015) + (((11 - 1) / 3 : Nat) : Int))
            ++ "" ++ "&apikey=" ++ baseCfg.key
          ∨ u = baseCfg.apiAddress ++ "/" ++ "v3/ratios" ++ symbolStr (some "IBM")
            ++ "?period=annual&limit=" ++ toString ((2023 : Int) - 2015)
            ++ "" ++ "&apikey=" ++ baseCfg.key)) :=
  ⟨by decide, by decide,
   claim_c7 (some "2000-01-01") "KEY" .legacy 3 10 2023 11 false true baseCfg
     trOK waitNone "v3/ratios" (some "IBM") "2015-06-30" 2015 "" "?" (by decide) (by decide)⟩

/-- C10: under celery_submit with workers running, get_json_parsed_data
returns the submission handle for every URL and never raises
RequestError; hence in auto mode the quarterly branch returns the
quarterly submission handle immediately and the annual fallback is
unreachable: only the quarterly URL is ever requested. -/
theorem claim_c10 (cfg : Cfg) (tr : String → Nat → Option JsonData)
    (wait : String → Except PyErr JsonData) (series : String) (symbol : Option String)
    (s : String) (sy : Int) (add dl : String)
    (hm : cfg.taskQueuing = .celerySubmit) (hw : cfg.workersRunning = true)
    (hs : pyIntYear4 (.str s) = .ok sy) :
    (∀ url, getJsonParsedData cfg tr wait url = (.ok (.handle url), emptyLog))
    ∧ helperDataAutoPeriod cfg tr wait series symbol (.str s) .auto add dl
        = (.ok (some (.handle (urlQuarter cfg series (symbolStr symbol) sy add))),
           [urlQuarter cfg series (symbolStr symbol) sy add]) := by
  have hall : ∀ url, getJsonParsedData cfg tr wait url = (.ok (.handle url), emptyLog) := by
    intro url
    simp [getJsonParsedData, hm, hw]
  refine ⟨hall, ?_⟩
  rw [helperAuto_eval cfg tr wait series symbol s sy add dl hs,
    hall (urlQuarter cfg series (symbolStr symbol) sy add)]

/-- C10 witness: in celery_submit mode the auto branch returns the handle
of the quarterly URL and requests nothing else. -/
theorem claim_c10_witness :
    submitCfg.taskQueuing = .celerySubmit ∧ submitCfg.workersRunning = true
    ∧ pyIntYear4 (.str "2020-01-01") = .ok 2020
    ∧ ((∀ url, getJsonParsedData submitCfg trFail waitNone url = (.ok (.handle url), emptyLog))
      ∧ helperDataAutoPeriod submitCfg trFail waitNone "v3/income-statement" (some "MSFT")
          (.str "2020-01-01") .auto "" "?"
        = (.ok (some (.handle (urlQuarter submitCfg "v3/income-statement"
              (symbolStr (some "MSFT")) 2020 ""))),
           [urlQuarter submitCfg "v3/income-statement" (symbolStr (some "MSFT")) 2020 ""])) :=
  ⟨rfl, rfl, by decide,
   claim_c10 submitCfg trFail waitNone "v3/income-statement" (some "MSFT") "2020-01-01" 2020
     "" "?" rfl rfl (by decide)⟩

/-- C5 counterexample: with both an explicit caller-supplied date string
and an available store lookup, helper_start_date returns the store
lookup, not the explicit string that the claim says takes precedence. -/
theorem claim_c5_counterexample :
    helperStartDate baseCfg (.str "2015-01-01") (some (some "2020-05-05")) true
      = .ok (.str "2020-05-05")
    ∧ SDResult.str "2020-05-05" ≠ SDResult.str "2015-01-01" :=
  ⟨rfl, by decide⟩

/-- C5 amended: when the store (engine) is provided its lookup result is
returned unconditionally - the stringified date if found and str_date is
set, the raw value if found otherwise, and None when nothing is found -
overriding any caller-supplied date; only without a store does the
dispatch apply: an explicit date string is returned unchanged, the False
sentinel is passed through, and None falls back to the process-wide
default start date. -/
theorem claim_c5 (cfg : Cfg) (ds : DateStart) (dval s : String) (sd : Bool) :
    helperStartDate cfg ds (some (some dval)) true = .ok (.str dval)
    ∧ helperStartDate cfg ds (some (some dval)) false = .ok (.raw dval)
    ∧ helperStartDate cfg ds (some none) sd = .ok .none_
    ∧ helperStartDate cfg (.str s) none sd = .ok (.str s)
    ∧ helperStartDate cfg (.bool_ false) none sd = .ok .fls
    ∧ helperStartDate cfg .none_ none sd = .ok (.str cfg.dateStart) :=
  ⟨rfl, rfl, rfl, rfl, rfl, rfl⟩

/-- C6 counterexample: the 7-character string "invalid" passes through
helper_start_date unchanged (no date-format error), and the price-history
request path then issues a request whose URL embeds from=invalid - so the
per-call operation neither fails nor avoids the network call. -/
theorem claim_c6_counterexample :
    "invalid".length ≠ 10
    ∧ helperStartDate baseCfg (.str "invalid") none false = .ok (.str "invalid")
    ∧ (helperDataAutoPeriod baseCfg trOK waitNone "v3/historical-price-full" (some "AAPL")
        (.str "invalid") .noFreq "" "?").2
      = ["https://financialmodelingprep.com/api/v3/historical-price-full/AAPL?from=invalid&apikey=KEY"] :=
  ⟨by decide, rfl, by decide⟩

/-- C6 amended: only the constructor validates the date format - for
every string that is not exactly 10 characters FMP.__init__ fails with
the date-format assertion - while the per-call start-date resolver
accepts such a string and returns it unchanged. -/
theorem claim_c6 (s : String) (cfg : Cfg) (sd : Bool) (h : s.length ≠ 10) :
    initDateStart (some s)
      = .error (.assertionError "Date must be in the format YYYY-MM-DD")
    ∧ helperStartDate cfg (.str s) none sd = .ok (.str s) := by
  refine ⟨?_, rfl⟩
  simp [initDateStart, h]

/-- C6 witness: the 7-character string "invalid" is rejected by the
constructor and accepted unchanged by the per-call resolver. -/
theorem claim_c6_witness :
    "invalid".length ≠ 10
    ∧ (initDateStart (some "invalid")
        = .error (.assertionError "Date must be in the format YYYY-MM-DD")
      ∧ helperStartDate baseCfg (.str "invalid") none false = .ok (.str "invalid")) :=
  ⟨by decide, claim_c6 "invalid" baseCfg false (by decide)⟩

/-- C9 counterexample: for a start date in the third quarter (2020-07-01)
with today in 2023 Q4, the quarterly limit is 15, whose covered window
starts one quarter before the quarter containing the start date. -/
theorem claim_c9_counterexample :
    earliestCoveredQuarterIdx baseCfg (limitQuarter baseCfg 2020) < startQuarterIdx 2020 7
    ∧ limitQuarter baseCfg 2020 = 15
    ∧ urlQuarter baseCfg "v3/income-statement" "/MSFT" 2020 ""
      = "https://financialmodelingprep.com/api/v3/income-statement/MSFT?period=quarter&limit=15&apikey=KEY" :=
  ⟨by decide, by decide, by decide⟩

/-- C9 amended: the quarterly window never extends beyond the current
quarter and its earliest covered quarter is exactly the second quarter
(index 1) of the start year, so it respects the quarter containing the
start date exactly when the start date lies in the first two quarters;
the annual window's earliest covered year is the year after the start
year, never before the start date's year. -/
theorem claim_c9 (cfg : Cfg) (sy : Int) (sm : Nat) (h1 : 1 ≤ sm) (h2 : sm ≤ 12) :
    earliestCoveredQuarterIdx cfg (limitQuarter cfg sy) = 4 * sy + 1
    ∧ (startQuarterIdx sy sm ≤ earliestCoveredQuarterIdx cfg (limitQuarter cfg sy)
        ↔ (sm - 1) / 3 ≤ 1)
    ∧ earliestCoveredYear cfg (limitAnnual cfg sy) = sy + 1 := by
  have e1 : earliestCoveredQuarterIdx cfg (limitQuarter cfg sy) = 4 * sy + 1 := by
    simp only [earliestCoveredQuarterIdx, currentQuarterIdx, limitQuarter, limitAnnual]
    ring
  refine ⟨e1, ?_, ?_⟩
  · rw [e1]
    simp only [startQuarterIdx]
    constructor
    · intro h
      omega
    · intro h
      omega
  · simp only [earliestCoveredYear, limitAnnual]
    ring

/-- C9 witness: for a start date in 2020 Q2 (month 5) the quarterly
window starts exactly at the quarter containing the start date. -/
theorem claim_c9_witness :
    (1 ≤ 5 ∧ 5 ≤ 12)
    ∧ (earliestCoveredQuarterIdx baseCfg (limitQuarter baseCfg 2020) = 4 * 2020 + 1
      ∧ (startQuarterIdx 2020 5 ≤ earliestCoveredQuarterIdx baseCfg (limitQuarter baseCfg 2020)
          ↔ (5 - 1) / 3 ≤ 1)
      ∧ earliestCoveredYear baseCfg (limitAnnual baseCfg 2020) = 2020 + 1) :=
  ⟨by decide, claim_c9 baseCfg 2020 5 (by decide) (by decide)⟩

theorem lookupAssoc_cons {α : Type} (a : String × α) (t : List (String × α)) (k : String) :
    lookupAssoc (a :: t) k = if a.1 = k then some a.2 else lookupAssoc t k := by
  by_cases h : a.1 = k
  · simp [lookupAssoc, List.find?_cons_of_pos, h]
  · simp [lookupAssoc, List.find?_cons_of_neg, h]

theorem lookupAssoc_eq_none {α : Type} (l : List (String × α)) (k : String)
    (h : k ∉ l.map (fun p => p.1)) : lookupAssoc l k = none := by
  induction l with
  | nil => rfl
  | cons a t ih =>
    simp only [List.map_cons, List.mem_cons] at h
    push_neg at h
    rw [lookupAssoc_cons, if_neg (fun hc => h.1 hc.symm)]
    exact ih h.2

theorem lookupAssoc_nodup_mem {α : Type} (l : List (String × α)) (k : String) (v : α)
    (hnd : (l.map (fun p => p.1)).Nodup) (hmem : (k, v) ∈ l) : lookupAssoc l k = some v := by
  induction l with
  | nil => cases hmem
  | cons a t ih =>
    rw [lookupAssoc_cons]
    rcases List.mem_cons.mp hmem with heq | hmem2
    · rw [← heq]
      simp
    · have hk : k ∈ t.map (fun p => p.1) :=
        List.mem_map.mpr ⟨(k, v), hmem2, rfl⟩
      have hne : a.1 ≠ k := by
        intro hc
        exact (List.nodup_cons.mp (by simpa using hnd)).1 (hc ▸ hk)
      rw [if_neg hne]
      exact ih (List.nodup_cons.mp (by simpa using hnd)).2 hmem2

theorem lookupAssoc_map {α β : Type} (l : List (String × α)) (f : String → α → β) (k : String) :
    lookupAssoc (l.map (fun p => (p.1, f p.1 p.2))) k = (lookupAssoc l k).map (f k) := by
  induction l with
  | nil => rfl
  | cons a t ih =>
    simp only [List.map_cons]
    rw [lookupAssoc_cons, lookupAssoc_cons]
    by_cases h : a.1 = k
    · subst h
      simp
    · simp [h, ih]

theorem map_fst_eraseP {α : Type} (l : List (String × α)) (sym : String) :
    (l.eraseP (fun c => c.1 == sym)).map (fun c => c.1)
      = (l.map (fun c => c.1)).erase sym := by
  induction l with
  | nil => rfl
  | cons a t ih =>
    rw [List.erase_eq_eraseP']
    by_cases h : a.1 = sym
    · simp [List.eraseP_cons, h]
    · simp only [List.eraseP_cons, List.map_cons]
      rw [show ((a.1 == sym) = false) from by simpa using h]
      simp only [cond_false, List.map_cons]
      rw [ih, List.erase_eq_eraseP']

theorem lookupAssoc_eraseP_ne {α : Type} (l : List (String × α)) (sym k : String)
    (h : k ≠ sym) :
    lookupAssoc (l.eraseP (fun c => c.1 == sym)) k = lookupAssoc l k := by
  induction l with
  | nil => rfl
  | cons a t ih =>
    by_cases ha : a.1 = sym
    · rw [show (a :: t).eraseP (fun c => c.1 == sym) = t from by simp [List.eraseP_cons, ha]]
      rw [lookupAssoc_cons, if_neg (by rw [ha]; exact fun hc => h hc.symm)]
    · rw [show (a :: t).eraseP (fun c => c.1 == sym) = a :: t.eraseP (fun c => c.1 == sym) from by
        simp only [List.eraseP_cons]
        rw [show ((a.1 == sym) = false) from by simpa using ha]
        rfl]
      rw [lookupAssoc_cons, lookupAssoc_cons, ih]

theorem mapM_ok_of_forall {α β : Type} (l : List α) (F : α → Except PyErr β) (G : α → β)
    (h : ∀ x ∈ l, F x = .ok (G x)) : l.mapM F = .ok (l.map G) := by
  induction l with
  | nil => rfl
  | cons a t ih =>
    rw [List.mapM_cons, h a (List.mem_cons_self a t),
      ih (fun x hx => h x (List.mem_cons_of_mem a hx))]
    rfl

theorem delSymbolAll_ok (dp : ProcBatch) (sym : String)
    (h : ∀ p ∈ dp, p.2.any (fun c => c.1 == sym) = true) :
    delSymbolAll dp sym
      = .ok (dp.map (fun p => (p.1, p.2.eraseP (fun c => c.1 == sym)))) := by
  unfold delSymbolAll
  apply mapM_ok_of_forall
  intro p hp
  rw [if_pos (h p hp)]

theorem mem_foldl_erase (syms : List String) :
    ∀ (L : List String), L.Nodup →
      ∀ x, x ∈ syms.foldl (fun acc s => acc.erase s) L ↔ x ∈ L ∧ x ∉ syms := by
  induction syms with
  | nil => simp
  | cons s t ih =>
    intro L hnd x
    simp only [List.foldl_cons]
    rw [ih (L.erase s) (hnd.erase s) x]
    constructor
    · rintro ⟨hmem, hnot⟩
      have hx := (hnd.mem_erase_iff).mp hmem
      refine ⟨hx.2, ?_⟩
      simp only [List.mem_cons, not_or]
      exact ⟨hx.1, hnot⟩
    · rintro ⟨hmem, hnot⟩
      simp only [List.mem_cons, not_or] at hnot
      exact ⟨(hnd.mem_erase_iff).mpr ⟨hnot.1, hmem⟩, hnot.2⟩

theorem step1_sheets (proc : ProcFun) (d : Batch) :
    pSheetNames (step1Process proc d) = sheetNames d := by
  simp [step1Process, pSheetNames, sheetNames]

theorem step1_symbols (proc : ProcFun) (d : Batch) (syms : List String)
    (h : ∀ p ∈ d, symbolNames p.2 = syms) :
    ∀ p ∈ step1Process proc d, symbolNames p.2 = syms := by
  intro p hp
  rcases List.mem_map.mp hp with ⟨q, hq, rfl⟩
  simpa [symbolNames] using h q hq

theorem combineStep_not_present (cfg : Cfg) (dp : ProcBatch)
    (h : cfg.keyEiUs ∉ pSheetNames dp) : combineStep cfg dp = .ok dp := by
  unfold combineStep
  rw [lookupAssoc_eq_none dp cfg.keyEiUs h]

theorem mem_symbolsToRemoveList (proc : ProcFun) (mandatory : List String) (d : Batch)
    (sym : String) :
    sym ∈ symbolsToRemoveList proc mandatory d
      ↔ failsMandatory proc mandatory d sym = true := by
  constructor
  · intro h
    rcases List.mem_flatMap.mp h with ⟨sh, hsh, hmem⟩
    by_cases hm : mandatory.contains sh.1
    · rw [if_pos hm] at hmem
      rcases List.mem_map.mp hmem with ⟨c, hc, rfl⟩
      have hcf := List.mem_filter.mp hc
      refine List.any_eq_true.mpr ⟨sh, hsh, ?_⟩
      rw [Bool.and_eq_true]
      exact ⟨hm, List.any_eq_true.mpr ⟨c, hcf.1, by simp [hcf.2]⟩⟩
    · rw [if_neg hm] at hmem
      cases hmem
  · intro h
    rcases List.any_eq_true.mp h with ⟨sh, hsh, hx⟩
    rw [Bool.and_eq_true] at hx
    rcases List.any_eq_true.mp hx.2 with ⟨c, hc, hcx⟩
    rw [Bool.and_eq_true, beq_iff_eq] at hcx
    apply List.mem_flatMap.mpr
    refine ⟨sh, hsh, ?_⟩
    rw [if_pos hx.1]
    exact List.mem_map.mpr ⟨c, List.mem_filter.mpr ⟨hc, hcx.2⟩, hcx.1⟩

theorem removeSymbols_spec (syms : List String) :
    ∀ (dp : ProcBatch) (L : List String),
      (∀ p ∈ dp, symbolNames p.2 = L) → L.Nodup → syms.Nodup →
      (∀ x ∈ syms, x ∈ L) →
      ∃ dp2, removeSymbols dp syms = .ok dp2
        ∧ pSheetNames dp2 = pSheetNames dp
        ∧ (∀ p ∈ dp2, symbolNames p.2 = syms.foldl (fun acc x => acc.erase x) L)
        ∧ (∀ sheet k, k ∉ syms → lookupCell dp2 sheet k = lookupCell dp sheet k) := by
  induction syms with
  | nil =>
    intro dp L hL _ _ _
    exact ⟨dp, rfl, rfl, by simpa using hL, fun _ _ _ => rfl⟩
  | cons x t ih =>
    intro dp L hL hndL hnds hsub
    have hx : x ∈ L := hsub x (List.mem_cons_self x t)
    have hany : ∀ p ∈ dp, p.2.any (fun c => c.1 == x) = true := by
      intro p hp
      have hmem : x ∈ symbolNames p.2 := by
        rw [hL p hp]
        exact hx
      rcases List.mem_map.mp hmem with ⟨c, hc, rfl⟩
      exact List.any_eq_true.mpr ⟨c, hc, by simp⟩
    have hdel := delSymbolAll_ok dp x hany
    have hstep : removeSymbols dp (x :: t)
        = removeSymbols (dp.map (fun p => (p.1, p.2.eraseP (fun c => c.1 == x)))) t := by
      unfold removeSymbols
      show (delSymbolAll dp x >>= fun b => List.foldlM delSymbolAll b t)
        = List.foldlM delSymbolAll (dp.map (fun p => (p.1, p.2.eraseP (fun c => c.1 == x)))) t
      rw [hdel]
      rfl
    have hL2 : ∀ p ∈ dp.map (fun p => (p.1, p.2.eraseP (fun c => c.1 == x))),
        symbolNames p.2 = L.erase x := by
      intro p hp
      rcases List.mem_map.mp hp with ⟨q, hq, rfl⟩
      show (q.2.eraseP (fun c => c.1 == x)).map (fun c => c.1) = L.erase x
      rw [map_fst_eraseP]
      rw [show q.2.map (fun c => c.1) = L from hL q hq]
    have hsub2 : ∀ z ∈ t, z ∈ L.erase x := by
      intro z hz
      have hzx : z ≠ x := by
        intro hc
        exact (List.nodup_cons.mp hnds).1 (hc ▸ hz)
      exact (hndL.mem_erase_iff).mpr ⟨hzx, hsub z (List.mem_cons_of_mem x hz)⟩
    obtain ⟨dp2, hrm, hsh, hLfin, hpres⟩ :=
      ih (dp.map (fun p => (p.1, p.2.eraseP (fun c => c.1 == x)))) (L.erase x)
        hL2 (hndL.erase x) (List.nodup_cons.mp hnds).2 hsub2
    refine ⟨dp2, by rw [hstep]; exact hrm, ?_, ?_, ?_⟩
    · rw [hsh]
      simp [pSheetNames]
    · intro p hp
      rw [hLfin p hp]
      simp
    · intro sheet k hk
      simp only [List.mem_cons, not_or] at hk
      rw [hpres sheet k hk.2]
      show lookupCell (dp.map (fun p => (p.1, p.2.eraseP (fun c => c.1 == x)))) sheet k
        = lookupCell dp sheet k
      unfold lookupCell
      rw [show (dp.map (fun p => (p.1, p.2.eraseP (fun c => c.1 == x))))
          = dp.map (fun p => (p.1, (fun _ cells =>
              cells.eraseP (fun c => c.1 == x)) p.1 p.2)) from rfl]
      rw [lookupAssoc_map dp (fun _ cells => cells.eraseP (fun c => c.1 == x)) sheet]
      rcases lookupAssoc dp sheet with _ | cells
      · rfl
      · show lookupAssoc (cells.eraseP (fun c => c.1 == x)) k = lookupAssoc cells k
        exact lookupAssoc_eraseP_ne cells x k hk.1

/-- C1: for a batch whose sheets share one symbol list (and without the
composite macro sheet), processing succeeds and: every symbol whose cell
failed on some mandatory sheet is absent from every sheet of the result;
the symbol set is identical across all sheets; a surviving symbol's cell
holds exactly its processed value, so a failure on a non-mandatory sheet
is stored as a None cell for that one (sheet, symbol) without removing
the symbol anywhere. -/
theorem claim_c1 (cfg : Cfg) (proc : ProcFun) (mandatory : List String) (d : Batch)
    (syms : List String)
    (hkey : cfg.keyEiUs ∉ sheetNames d)
    (hsheets : (sheetNames d).Nodup)
    (hsyms : ∀ p ∈ d, symbolNames p.2 = syms)
    (hnd : syms.Nodup) :
    ∃ dp, processCeleryResults cfg proc (.list_ mandatory) d = .ok dp
      ∧ pSheetNames dp = sheetNames d
      ∧ (∀ x, failsMandatory proc mandatory d x = true →
          ∀ p ∈ dp, x ∉ symbolNames p.2)
      ∧ (∀ p, p ∈ dp → ∀ q, q ∈ dp → symbolNames p.2 = symbolNames q.2)
      ∧ (∀ p ∈ dp, ∀ x, x ∈ symbolNames p.2 ↔
          x ∈ syms ∧ failsMandatory proc mandatory d x = false)
      ∧ (∀ sh cells sym out, (sh, cells) ∈ d → (sym, out) ∈ cells →
          failsMandatory proc mandatory d sym = false →
          lookupCell dp sh sym = some (evalCell proc sh out)) := by
  have hL1 := step1_symbols proc d syms hsyms
  have hcs : combineStep cfg (step1Process proc d) = .ok (step1Process proc d) :=
    combineStep_not_present cfg _ (by rw [step1_sheets]; exact hkey)
  have hndR : ((symbolsToRemoveList proc mandatory d).dedup).Nodup := List.nodup_dedup _
  have hsubR : ∀ x ∈ (symbolsToRemoveList proc mandatory d).dedup, x ∈ syms := by
    intro x hxd
    have hf := (mem_symbolsToRemoveList proc mandatory d x).mp (List.mem_dedup.mp hxd)
    rcases List.any_eq_true.mp hf with ⟨sh, hsh, hbx⟩
    rw [Bool.and_eq_true] at hbx
    rcases List.any_eq_true.mp hbx.2 with ⟨c, hc, hcx⟩
    rw [Bool.and_eq_true, beq_iff_eq] at hcx
    rw [← hsyms sh hsh]
    exact hcx.1 ▸ List.mem_map.mpr ⟨c, hc, rfl⟩
  have hiff : ∀ x, x ∉ (symbolsToRemoveList proc mandatory d).dedup
      ↔ failsMandatory proc mandatory d x = false := by
    intro x
    rw [List.mem_dedup, mem_symbolsToRemoveList]
    simp [Bool.not_eq_true]
  obtain ⟨dp2, hrm, hsh2, hLfin, hpres⟩ :=
    removeSymbols_spec ((symbolsToRemoveList proc mandatory d).dedup)
      (step1Process proc d) syms hL1 hnd hndR hsubR
  have hchar : ∀ p ∈ dp2, ∀ x, x ∈ symbolNames p.2 ↔
      x ∈ syms ∧ failsMandatory proc mandatory d x = false := by
    intro p hp x
    rw [hLfin p hp, mem_foldl_erase _ syms hnd x]
    constructor
    · rintro ⟨h1, h2⟩
      exact ⟨h1, (hiff x).mp h2⟩
    · rintro ⟨h1, h2⟩
      exact ⟨h1, (hiff x).mpr h2⟩
  refine ⟨dp2, ?_, ?_, ?_, ?_, hchar, ?_⟩
  · show (match combineStep cfg (step1Process proc d) with
         | .error e => Except.error e
         | .ok dpx => removeSymbols dpx ((symbolsToRemoveList proc mandatory d).dedup))
        = Except.ok dp2
    rw [hcs]
    exact hrm
  · rw [hsh2, step1_sheets]
  · intro x hfx p hp hmem
    have hx2 := ((hchar p hp x).mp hmem).2
    rw [hfx] at hx2
    simp at hx2
  · intro p hp q hq
    rw [hLfin p hp, hLfin q hq]
  · intro sh cells sym out hshd hcell hfs
    have hnm : sym ∉ (symbolsToRemoveList proc mandatory d).dedup := (hiff sym).mpr hfs
    rw [hpres sh sym hnm]
    unfold lookupCell
    rw [show step1Process proc d
        = d.map (fun p => (p.1, (fun k cells2 =>
            cells2.map (fun c => (c.1, evalCell proc k c.2))) p.1 p.2)) from rfl]
    rw [lookupAssoc_map d
      (fun k cells2 => cells2.map (fun c => (c.1, evalCell proc k c.2))) sh]
    rw [lookupAssoc_nodup_mem d sh cells hsheets hshd]
    show lookupAssoc (cells.map (fun c => (c.1, evalCell proc sh c.2))) sym
      = some (evalCell proc sh out)
    rw [show (cells.map (fun c => (c.1, evalCell proc sh c.2)))
        = cells.map (fun c => (c.1, (fun _ o => evalCell proc sh o) c.1 c.2)) from rfl]
    rw [lookupAssoc_map cells (fun _ o => evalCell proc sh o) sym]
    rw [lookupAssoc_nodup_mem cells sym out
      (by rw [show cells.map (fun p => p.1) = syms from hsyms (sh, cells) hshd]; exact hnd)
      hcell]
    rfl

/-- C1 witness: the spec scenario - Prices mandatory, Income not, symbol
A fails on Prices and succeeds on Income, symbol B succeeds on both - and
the Cleaned Dataset keeps exactly B in both sheets. -/
theorem claim_c1_witness :
    baseCfg.keyEiUs ∉ sheetNames dC1
    ∧ (sheetNames dC1).Nodup
    ∧ (∀ p ∈ dC1, symbolNames p.2 = ["A", "B"])
    ∧ (["A", "B"] : List String).Nodup
    ∧ processCeleryResults baseCfg procSome (.list_ ["Prices"]) dC1
        = .ok [("Prices", [("B", some dfX)]), ("Income", [("B", some dfX)])]
    ∧ (∃ dp, processCeleryResults baseCfg procSome (.list_ ["Prices"]) dC1 = .ok dp
      ∧ pSheetNames dp = sheetNames dC1
      ∧ (∀ x, failsMandatory procSome ["Prices"] dC1 x = true →
          ∀ p ∈ dp, x ∉ symbolNames p.2)
      ∧ (∀ p, p ∈ dp → ∀ q, q ∈ dp → symbolNames p.2 = symbolNames q.2)
      ∧ (∀ p ∈ dp, ∀ x, x ∈ symbolNames p.2 ↔
          x ∈ ["A", "B"] ∧ failsMandatory procSome ["Prices"] dC1 x = false)
      ∧ (∀ sh cells sym out, (sh, cells) ∈ dC1 → (sym, out) ∈ cells →
          failsMandatory procSome ["Prices"] dC1 sym = false →
          lookupCell dp sh sym = some (evalCell procSome sh out))) :=
  ⟨by decide, by decide, by decide, by decide, by decide,
   claim_c1 baseCfg procSome ["Prices"] dC1 ["A", "B"]
     (by decide) (by decide) (by decide) (by decide)⟩

theorem lookupAssoc_mem {α : Type} {l : List (String × α)} {k : String} {v : α}
    (h : lookupAssoc l k = some v) : (k, v) ∈ l := by
  unfold lookupAssoc at h
  rcases hf : l.find? (fun p => p.1 == k) with _ | p
  · rw [hf] at h
    cases h
  · rw [hf] at h
    injection h with h2
    have hm := List.mem_of_find?_eq_some hf
    have hk := List.find?_some hf
    rw [beq_iff_eq] at hk
    have hp : p = (k, v) := by
      rcases p with ⟨p1, p2⟩
      simp only at hk h2
      rw [hk, h2]
    rw [← hp]
    exact hm

theorem lookupAssoc_keyed_map {α : Type} (L : List String) (g : String → α) (k : String) :
    lookupAssoc (L.map (fun d => (d, g d))) k = if k ∈ L then some (g k) else none := by
  induction L with
  | nil => simp [lookupAssoc]
  | cons a t ih =>
    simp only [List.map_cons]
    rw [lookupAssoc_cons]
    by_cases h : a = k
    · subst h
      simp
    · rw [if_neg h, ih]
      by_cases hm : k ∈ t
      · rw [if_pos hm, if_pos (List.mem_cons_of_mem a hm)]
      · rw [if_neg hm, if_neg (by
          intro hc
          rcases List.mem_cons.mp hc with hc2 | hc2
          · exact h hc2.symm
          · exact hm hc2)]

theorem lookupAssoc_append_left_none {α : Type} (l1 l2 : List (String × α)) (k : String)
    (h : lookupAssoc l1 k = none) :
    lookupAssoc (l1 ++ l2) k = lookupAssoc l2 k := by
  induction l1 with
  | nil => rfl
  | cons a t ih =>
    rw [lookupAssoc_cons] at h
    by_cases ha : a.1 = k
    · rw [if_pos ha] at h
      cases h
    · rw [if_neg ha] at h
      rw [List.cons_append, lookupAssoc_cons, if_neg ha]
      exact ih h

theorem mem_unionIdx (l1 l2 : List String) (dt : String) :
    dt ∈ unionIdx l1 l2 ↔ dt ∈ l1 ∨ dt ∈ l2 := by
  rw [unionIdx, List.mem_dedup, List.mem_append]

theorem mem_idx_join (a b : DFrame) (dt : String) :
    dt ∈ idxList (pdJoinOuter a b) ↔ dt ∈ idxList a ∨ dt ∈ idxList b := by
  show dt ∈ ((unionIdx (idxList a) (idxList b)).map
      (fun d => (d, rowOf a d ++ rowOf b d))).map (fun r => r.1) ↔ _
  rw [List.map_map]
  rw [show ((fun r : String × List (String × Int) => r.1) ∘
      (fun d => (d, rowOf a d ++ rowOf b d))) = id from rfl]
  rw [List.map_id]
  exact mem_unionIdx _ _ dt

theorem mem_rowOf {a : DFrame} {dt : String} {q : String × Int} (h : q ∈ rowOf a dt) :
    ∃ r ∈ a.rows, q ∈ r.2 := by
  unfold rowOf at h
  rcases hl : lookupAssoc a.rows dt with _ | row
  · rw [hl] at h
    cases h
  · rw [hl] at h
    exact ⟨(dt, row), lookupAssoc_mem hl, h⟩

theorem cellVal_join (a b : DFrame) (dt c : String) :
    cellVal (pdJoinOuter a b) dt c
      = if dt ∈ unionIdx (idxList a) (idxList b)
        then lookupAssoc (rowOf a dt ++ rowOf b dt) c else none := by
  unfold cellVal
  rw [show (pdJoinOuter a b).rows = (unionIdx (idxList a) (idxList b)).map
      (fun d => (d, rowOf a d ++ rowOf b d)) from rfl]
  rw [lookupAssoc_keyed_map]
  by_cases h : dt ∈ unionIdx (idxList a) (idxList b)
  · rw [if_pos h, if_pos h]
    rfl
  · rw [if_neg h, if_neg h]
    rfl

theorem cellVal_none_of_not_mem (b : DFrame) (dt c : String) (h : dt ∉ idxList b) :
    cellVal b dt c = none := by
  unfold cellVal
  rw [lookupAssoc_eq_none b.rows dt h]
  rfl

theorem rowOf_eq_nil_of_not_mem (b : DFrame) (dt : String) (h : dt ∉ idxList b) :
    rowOf b dt = [] := by
  unfold rowOf
  rw [lookupAssoc_eq_none b.rows dt h]

theorem lookupAssoc_eq_none_iff {α : Type} (l : List (String × α)) (k : String) :
    lookupAssoc l k = none ↔ k ∉ l.map (fun p => p.1) := by
  constructor
  · induction l with
    | nil =>
      intro _
      simp
    | cons a t ih =>
      intro h
      rw [lookupAssoc_cons] at h
      by_cases ha : a.1 = k
      · rw [if_pos ha] at h
        cases h
      · rw [if_neg ha] at h
        simp only [List.map_cons, List.mem_cons, not_or]
        exact ⟨fun hc => ha hc.symm, ih h⟩
  · exact lookupAssoc_eq_none l k

theorem cellVal_eq_lookup_rowOf (b : DFrame) (dt c : String) (h : dt ∈ idxList b) :
    cellVal b dt c = lookupAssoc (rowOf b dt) c := by
  unfold cellVal rowOf
  rcases hl : lookupAssoc b.rows dt with _ | row
  · exact absurd h ((lookupAssoc_eq_none_iff b.rows dt).mp hl)
  · rfl

theorem cellVal_join_right (a b : DFrame) (dt c : String)
    (hfresh : ∀ r ∈ a.rows, ∀ q ∈ r.2, q.1 ≠ c) :
    cellVal (pdJoinOuter a b) dt c = cellVal b dt c := by
  rw [cellVal_join]
  by_cases h : dt ∈ unionIdx (idxList a) (idxList b)
  · rw [if_pos h]
    have h1 : lookupAssoc (rowOf a dt) c = none := by
      apply lookupAssoc_eq_none
      intro hc
      rcases List.mem_map.mp hc with ⟨q, hq, rfl⟩
      rcases mem_rowOf hq with ⟨r, hr, hqr⟩
      exact hfresh r hr q hqr rfl
    rw [lookupAssoc_append_left_none _ _ _ h1]
    by_cases hb : dt ∈ idxList b
    · rw [cellVal_eq_lookup_rowOf b dt c hb]
    · rw [rowOf_eq_nil_of_not_mem b dt hb, cellVal_none_of_not_mem b dt c hb]
      rfl
  · rw [if_neg h]
    have hb : dt ∉ idxList b := fun hc => h ((mem_unionIdx _ _ dt).mpr (Or.inr hc))
    rw [cellVal_none_of_not_mem b dt c hb]

theorem lookupAssoc_append_left_some {α : Type} (l1 l2 : List (String × α)) (k : String)
    (v : α) (h : lookupAssoc l1 k = some v) :
    lookupAssoc (l1 ++ l2) k = some v := by
  induction l1 with
  | nil => cases h
  | cons a t ih =>
    rw [lookupAssoc_cons] at h
    rw [List.cons_append, lookupAssoc_cons]
    by_cases ha : a.1 = k
    · rw [if_pos ha] at h ⊢
      exact h
    · rw [if_neg ha] at h ⊢
      exact ih h

theorem cellVal_join_left (a b : DFrame) (dt c : String)
    (hfresh : ∀ r ∈ b.rows, ∀ q ∈ r.2, q.1 ≠ c) :
    cellVal (pdJoinOuter a b) dt c = cellVal a dt c := by
  rw [cellVal_join]
  have h2 : lookupAssoc (rowOf b dt) c = none := by
    apply lookupAssoc_eq_none
    intro hc
    rcases List.mem_map.mp hc with ⟨q, hq, rfl⟩
    rcases mem_rowOf hq with ⟨r, hr, hqr⟩
    exact hfresh r hr q hqr rfl
  by_cases h : dt ∈ unionIdx (idxList a) (idxList b)
  · rw [if_pos h]
    by_cases ha : dt ∈ idxList a
    · rw [cellVal_eq_lookup_rowOf a dt c ha]
      rcases hl : lookupAssoc (rowOf a dt) c with _ | v
      · rw [lookupAssoc_append_left_none _ _ _ hl, h2]
      · rw [lookupAssoc_append_left_some _ _ _ _ hl]
    · rw [rowOf_eq_nil_of_not_mem a dt ha, cellVal_none_of_not_mem a dt c ha]
      simpa using h2
  · rw [if_neg h]
    have ha : dt ∉ idxList a := fun hc => h ((mem_unionIdx _ _ dt).mpr (Or.inl hc))
    rw [cellVal_none_of_not_mem a dt c ha]

theorem join_fresh (a b : DFrame) (c : String)
    (ha : ∀ r ∈ a.rows, ∀ q ∈ r.2, q.1 ≠ c)
    (hb : ∀ r ∈ b.rows, ∀ q ∈ r.2, q.1 ≠ c) :
    ∀ r ∈ (pdJoinOuter a b).rows, ∀ q ∈ r.2, q.1 ≠ c := by
  intro r hr q hq
  rcases List.mem_map.mp hr with ⟨dt, _, rfl⟩
  rcases List.mem_append.mp hq with h1 | h2
  · rcases mem_rowOf h1 with ⟨r2, hr2, hqr⟩
    exact ha r2 hr2 q hqr
  · rcases mem_rowOf h2 with ⟨r2, hr2, hqr⟩
    exact hb r2 hr2 q hqr

theorem rename_idx (nn : String) (f : DFrame) :
    idxList (renameValueCol nn f) = idxList f := by
  simp [renameValueCol, idxList]

theorem rename_cols (nn : String) (f : DFrame) (h : f.cols = ["value"]) :
    (renameValueCol nn f).cols = [nn] := by
  simp [renameValueCol, h]

theorem rename_keys (nn : String) (f : DFrame)
    (h : ∀ r ∈ f.rows, ∀ q ∈ r.2, q.1 = "value") :
    ∀ r ∈ (renameValueCol nn f).rows, ∀ q ∈ r.2, q.1 = nn := by
  intro r hr q hq
  rcases List.mem_map.mp hr with ⟨r0, hr0, rfl⟩
  rcases List.mem_map.mp hq with ⟨q0, hq0, rfl⟩
  simp [h r0 hr0 q0 hq0]

theorem lookupAssoc_row_rename (nn : String) (row : List (String × Int))
    (h : ∀ q ∈ row, q.1 = "value") :
    lookupAssoc (row.map (fun p => (if p.1 == "value" then nn else p.1, p.2))) nn
      = lookupAssoc row "value" := by
  induction row with
  | nil => rfl
  | cons q t ih =>
    have hq : q.1 = "value" := h q (List.mem_cons_self q t)
    simp only [List.map_cons]
    rw [lookupAssoc_cons, lookupAssoc_cons]
    rw [show (if q.1 == "value" then nn else q.1) = nn from by simp [hq]]
    rw [if_pos rfl, if_pos hq]

theorem cellVal_rename (nn : String) (f : DFrame) (dt : String)
    (h : ∀ r ∈ f.rows, ∀ q ∈ r.2, q.1 = "value") :
    cellVal (renameValueCol nn f) dt nn = cellVal f dt "value" := by
  unfold cellVal renameValueCol
  rw [show (f.rows.map (fun r =>
      (r.1, r.2.map (fun p => (if p.1 == "value" then nn else p.1, p.2)))))
      = f.rows.map (fun r => (r.1, (fun _ row =>
          row.map (fun p => (if p.1 == "value" then nn else p.1, p.2))) r.1 r.2)) from rfl]
  rw [lookupAssoc_map f.rows
    (fun _ row => row.map (fun p => (if p.1 == "value" then nn else p.1, p.2))) dt]
  rcases hl : lookupAssoc f.rows dt with _ | row
  · rfl
  · show lookupAssoc (row.map (fun p => (if p.1 == "value" then nn else p.1, p.2))) nn
      = lookupAssoc row "value"
    exact lookupAssoc_row_rename nn row (h (dt, row) (lookupAssoc_mem hl))

theorem combine_cols_aux (key : String) (fs : List (String × DFrame)) :
    ∀ acc : DFrame, (∀ p ∈ fs, p.2.cols = ["value"]) →
      (fs.foldl (fun df p =>
        pdJoinOuter df (renameValueCol (key ++ "_" ++ p.1) p.2)) acc).cols
        = acc.cols ++ fs.map (fun p => key ++ "_" ++ p.1) := by
  induction fs with
  | nil =>
    intro acc _
    simp
  | cons p t ih =>
    intro acc hc
    simp only [List.foldl_cons]
    rw [ih _ (fun q hq => hc q (List.mem_cons_of_mem p hq))]
    show (acc.cols ++ (renameValueCol (key ++ "_" ++ p.1) p.2).cols) ++ _ = _
    rw [rename_cols _ _ (hc p (List.mem_cons_self p t))]
    simp

theorem combine_idx_aux (key : String) (fs : List (String × DFrame)) :
    ∀ (acc : DFrame) (dt : String),
      dt ∈ idxList (fs.foldl (fun df p =>
          pdJoinOuter df (renameValueCol (key ++ "_" ++ p.1) p.2)) acc)
        ↔ dt ∈ idxList acc ∨ ∃ p ∈ fs, dt ∈ idxList p.2 := by
  induction fs with
  | nil =>
    intro acc dt
    simp
  | cons p t ih =>
    intro acc dt
    simp only [List.foldl_cons]
    rw [ih]
    rw [mem_idx_join, rename_idx]
    constructor
    · rintro (⟨h | h⟩ | ⟨q, hq, hdt⟩)
      · exact Or.inl h
      · exact Or.inr ⟨p, List.mem_cons_self p t, h⟩
      · exact Or.inr ⟨q, List.mem_cons_of_mem p hq, hdt⟩
    · rintro (h | ⟨q, hq, hdt⟩)
      · exact Or.inl (Or.inl h)
      · rcases List.mem_cons.mp hq with rfl | hq2
        · exact Or.inl (Or.inr hdt)
        · exact Or.inr ⟨q, hq2, hdt⟩

theorem combine_cell_of_fresh (key : String) (fs : List (String × DFrame)) (c dt : String) :
    ∀ acc : DFrame,
      (∀ p ∈ fs, ∀ r ∈ (renameValueCol (key ++ "_" ++ p.1) p.2).rows,
        ∀ q ∈ r.2, q.1 ≠ c) →
      cellVal (fs.foldl (fun df p =>
          pdJoinOuter df (renameValueCol (key ++ "_" ++ p.1) p.2)) acc) dt c
        = cellVal acc dt c := by
  induction fs with
  | nil =>
    intro acc _
    rfl
  | cons p t ih =>
    intro acc hf
    simp only [List.foldl_cons]
    rw [ih _ (fun q hq => hf q (List.mem_cons_of_mem p hq))]
    exact cellVal_join_left acc _ dt c (hf p (List.mem_cons_self p t))

theorem combine_cell (key : String) (fs : List (String × DFrame))
    (p0 : String × DFrame) (dt : String) :
    ∀ acc : DFrame, p0 ∈ fs →
      (∀ p ∈ fs, ∀ r ∈ p.2.rows, ∀ q ∈ r.2, q.1 = "value") →
      (fs.map (fun p => key ++ "_" ++ p.1)).Nodup →
      (∀ r ∈ acc.rows, ∀ q ∈ r.2, q.1 ≠ key ++ "_" ++ p0.1) →
      cellVal (fs.foldl (fun df p =>
          pdJoinOuter df (renameValueCol (key ++ "_" ++ p.1) p.2)) acc) dt
          (key ++ "_" ++ p0.1)
        = cellVal p0.2 dt "value" := by
  induction fs with
  | nil =>
    intro acc h
    cases h
  | cons p t ih =>
    intro acc hmem hvals hnd hacc
    simp only [List.foldl_cons]
    rcases List.mem_cons.mp hmem with heq | hmem2
    · subst heq
      have hfresh_t : ∀ q ∈ t, ∀ r ∈ (renameValueCol (key ++ "_" ++ q.1) q.2).rows,
          ∀ w ∈ r.2, w.1 ≠ key ++ "_" ++ p0.1 := by
        intro q hq r hr w hw
        rw [rename_keys (key ++ "_" ++ q.1) q.2
          (hvals q (List.mem_cons_of_mem p0 hq)) r hr w hw]
        intro hc
        have hin : key ++ "_" ++ p0.1 ∈ t.map (fun p => key ++ "_" ++ p.1) := by
          rw [← hc]
          exact List.mem_map.mpr ⟨q, hq, rfl⟩
        exact (List.nodup_cons.mp hnd).1 hin
      rw [combine_cell_of_fresh key t (key ++ "_" ++ p0.1) dt _ hfresh_t]
      rw [cellVal_join_right _ _ _ _ hacc]
      exact cellVal_rename _ _ _ (hvals p0 (List.mem_cons_self p0 t))
    · have hne : ∀ r ∈ (renameValueCol (key ++ "_" ++ p.1) p.2).rows,
          ∀ w ∈ r.2, w.1 ≠ key ++ "_" ++ p0.1 := by
        intro r hr w hw
        rw [rename_keys (key ++ "_" ++ p.1) p.2
          (hvals p (List.mem_cons_self p t)) r hr w hw]
        intro hc
        have hin : key ++ "_" ++ p.1 ∈ t.map (fun q => key ++ "_" ++ q.1) := by
          rw [hc]
          exact List.mem_map.mpr ⟨p0, hmem2, rfl⟩
        exact (List.nodup_cons.mp hnd).1 hin
      exact ih _ hmem2 (fun q hq => hvals q (List.mem_cons_of_mem p hq))
        (List.nodup_cons.mp hnd).2
        (join_fresh acc _ _ hacc hne)

theorem getFrames_map (frames : List (String × DFrame)) :
    getFrames (frames.map (fun p => (p.1, some p.2))) = .ok frames := by
  induction frames with
  | nil => rfl
  | cons p t ih => simp [getFrames, ih]

theorem lookupAssoc_map_replace {α : Type} (l : List (String × α)) (k : String)
    (v w : α) (h : lookupAssoc l k = some w) :
    lookupAssoc (l.map (fun p => if p.1 == k then (p.1, v) else p)) k = some v := by
  induction l with
  | nil => cases h
  | cons a t ih =>
    rw [lookupAssoc_cons] at h
    by_cases ha : a.1 = k
    · simp only [List.map_cons]
      rw [show (if a.1 == k then (a.1, v) else a) = (a.1, v) from by simp [ha]]
      rw [lookupAssoc_cons]
      simp [ha]
    · simp only [List.map_cons]
      rw [show (if a.1 == k then (a.1, v) else a) = a from by simp [ha]]
      rw [lookupAssoc_cons, if_neg ha]
      rw [if_neg ha] at h
      exact ih h

/-- C8: when the composite US-economic-indicators sheet is present in the
batch (all its cells processed to frames) and no mandatory sheets are
requested, processing succeeds and replaces that sheet's entry by the
single combined frame under the "combined" key; the combined frame's
columns are the series-qualified indicator names, its date index is the
union of the indicators' date sets, and each series-qualified column
holds exactly the indicator's value at each date - none (NaN) at dates
the indicator lacks. -/
theorem claim_c8 (cfg : Cfg) (proc : ProcFun) (d : Batch)
    (frames : List (String × DFrame))
    (h5 : lookupAssoc (step1Process proc d) cfg.keyEiUs
        = some (frames.map (fun p => (p.1, some p.2))))
    (h7 : (frames.map (fun p => cfg.keyEiUs ++ "_" ++ p.1)).Nodup)
    (h8 : ∀ p ∈ frames, p.2.cols = ["value"])
    (h9 : ∀ p ∈ frames, ∀ r ∈ p.2.rows, ∀ q ∈ r.2, q.1 = "value") :
    ∃ dp, processCeleryResults cfg proc .none_ d = .ok dp
      ∧ lookupAssoc dp cfg.keyEiUs
          = some [("combined", some (combineFrames cfg.keyEiUs frames))]
      ∧ (combineFrames cfg.keyEiUs frames).cols
          = frames.map (fun p => cfg.keyEiUs ++ "_" ++ p.1)
      ∧ (∀ dt, dt ∈ idxList (combineFrames cfg.keyEiUs frames)
          ↔ ∃ p ∈ frames, dt ∈ idxList p.2)
      ∧ (∀ p ∈ frames, ∀ dt, cellVal (combineFrames cfg.keyEiUs frames) dt
            (cfg.keyEiUs ++ "_" ++ p.1) = cellVal p.2 dt "value")
      ∧ (∀ p ∈ frames, ∀ dt, dt ∉ idxList p.2 →
          cellVal (combineFrames cfg.keyEiUs frames) dt (cfg.keyEiUs ++ "_" ++ p.1)
            = none) := by
  have hcs : combineStep cfg (step1Process proc d)
      = .ok ((step1Process proc d).map (fun p =>
          if p.1 == cfg.keyEiUs then
            (p.1, [("combined", some (combineFrames cfg.keyEiUs frames))])
          else p)) := by
    unfold combineStep
    rw [h5]
    simp only [getFrames_map]
  have hrem : (symbolsToRemoveList proc [] d).dedup = [] := by
    simp [symbolsToRemoveList]
  refine ⟨(step1Process proc d).map (fun p =>
      if p.1 == cfg.keyEiUs then
        (p.1, [("combined", some (combineFrames cfg.keyEiUs frames))])
      else p), ?_, ?_, ?_, ?_, ?_, ?_⟩
  · show (match combineStep cfg (step1Process proc d) with
        | .error e => Except.error e
        | .ok dpx => removeSymbols dpx ((symbolsToRemoveList proc [] d).dedup))
      = Except.ok _
    rw [hcs, hrem]
    rfl
  · exact lookupAssoc_map_replace (step1Process proc d) cfg.keyEiUs
      [("combined", some (combineFrames cfg.keyEiUs frames))]
      (frames.map (fun p => (p.1, some p.2))) h5
  · rw [show combineFrames cfg.keyEiUs frames
        = frames.foldl (fun df p =>
            pdJoinOuter df (renameValueCol (cfg.keyEiUs ++ "_" ++ p.1) p.2)) ⟨[], []⟩
      from rfl]
    rw [combine_cols_aux cfg.keyEiUs frames ⟨[], []⟩ h8]
    rfl
  · intro dt
    rw [show combineFrames cfg.keyEiUs frames
        = frames.foldl (fun df p =>
            pdJoinOuter df (renameValueCol (cfg.keyEiUs ++ "_" ++ p.1) p.2)) ⟨[], []⟩
      from rfl]
    rw [combine_idx_aux cfg.keyEiUs frames ⟨[], []⟩ dt]
    constructor
    · rintro (h | h)
      · cases h
      · exact h
    · exact Or.inr
  · intro p hp dt
    exact combine_cell cfg.keyEiUs frames p dt ⟨[], []⟩ hp h9 h7
      (by intro r hr; cases hr)
  · intro p hp dt hdt
    have hcell : cellVal (combineFrames cfg.keyEiUs frames) dt (cfg.keyEiUs ++ "_" ++ p.1)
        = cellVal p.2 dt "value" :=
      combine_cell cfg.keyEiUs frames p dt ⟨[], []⟩ hp h9 h7 (by intro r hr; cases hr)
    rw [hcell]
    exact cellVal_none_of_not_mem p.2 dt "value" hdt

/-- C8 witness: the two-indicator scenario with GDP and CPI frames
sharing one date; the combined frame carries the series-qualified
columns, the union date index, and NaN where an indicator lacks a date. -/
theorem claim_c8_witness :
    lookupAssoc (step1Process procC8 dC8) baseCfg.keyEiUs
        = some (framesC8.map (fun p => (p.1, some p.2)))
    ∧ (framesC8.map (fun p => baseCfg.keyEiUs ++ "_" ++ p.1)).Nodup
    ∧ (∀ p ∈ framesC8, p.2.cols = ["value"])
    ∧ (∀ p ∈ framesC8, ∀ r ∈ p.2.rows, ∀ q ∈ r.2, q.1 = "value")
    ∧ (∃ dp, processCeleryResults baseCfg procC8 .none_ dC8 = .ok dp
      ∧ lookupAssoc dp baseCfg.keyEiUs
          = some [("combined", some (combineFrames baseCfg.keyEiUs framesC8))]
      ∧ (combineFrames baseCfg.keyEiUs framesC8).cols
          = framesC8.map (fun p => baseCfg.keyEiUs ++ "_" ++ p.1)
      ∧ (∀ dt, dt ∈ idxList (combineFrames baseCfg.keyEiUs framesC8)
          ↔ ∃ p ∈ framesC8, dt ∈ idxList p.2)
      ∧ (∀ p ∈ framesC8, ∀ dt, cellVal (combineFrames baseCfg.keyEiUs framesC8) dt
            (baseCfg.keyEiUs ++ "_" ++ p.1) = cellVal p.2 dt "value")
      ∧ (∀ p ∈ framesC8, ∀ dt, dt ∉ idxList p.2 →
          cellVal (combineFrames baseCfg.keyEiUs framesC8) dt
            (baseCfg.keyEiUs ++ "_" ++ p.1) = none)) :=
  ⟨by decide, by decide, by decide, by decide,
   claim_c8 baseCfg procC8 dC8 framesC8 (by decide) (by decide) (by decide) (by decide)⟩
